import Mathlib

/-!
Verification of the metaball game simulation core (ChunkSystem.js,
PhysicsSystem.js, EntityManager.js, GameConfig.js) against its
natural-language specification.

The JavaScript code is shallowly embedded over the rationals.  The
transcendental library calls (`Math.sin`-based `seededRandom`,
`Math.sqrt`, fractional `Math.pow`) are abstracted as function
parameters (`rng`, `sqrtF`, `powF`): every theorem states exactly which
properties of those oracles it needs, pointwise, so each proof is about
the code's own arithmetic and control flow.
-/

/-! ## Configuration constants (GameConfig.js) -/

def CHUNK_SIZE : ℚ := 300
def CHUNK_BASE_LOAD_RADIUS : ℤ := 2
def CHUNK_UNLOAD_BUFFER : ℤ := 2

def PLAYER_INITIAL_RADIUS : ℚ := 22
def PLAYER_MIN_RADIUS : ℚ := 5
def PLAYER_HUE : ℚ := 200

def GRAVITY_ENABLED : Bool := true
def GRAVITY_MIN_RADIUS_TO_ACTIVATE : ℚ := 30
def GRAVITY_BASE_STRENGTH : ℚ := 2/100
def GRAVITY_RANGE_MULTIPLIER : ℚ := 4
def GRAVITY_MASS_POWER : ℚ := 3/2

def FOOD_COUNT_MIN : ℕ := 8
def FOOD_COUNT_MAX : ℕ := 15
def FOOD_RADIUS_MIN : ℚ := 6
def FOOD_RADIUS_MAX : ℚ := 14
def FOOD_HUE_MIN : ℚ := 90
def FOOD_HUE_MAX : ℚ := 130

def ENEMY_BASE_SIZE : ℚ := 20
def ENEMY_DISTANCE_SCALE : ℚ := 2
def ENEMY_SIZE_VARIATION : ℚ := 15
def ENEMY_SIZE_MIN_FRAC : ℚ := 7/10
def ENEMY_SIZE_MAX_FRAC : ℚ := 15/10
def ENEMY_INITIAL_VELOCITY : ℚ := 3/10
def ENEMY_HUE_MIN : ℚ := 340
def ENEMY_HUE_MAX : ℚ := 370
def ENEMY_SPAWN_CHANCE_BASE : ℚ := 15/100
def ENEMY_SPAWN_CHANCE_MAX : ℚ := 85/100

def BLACK_HOLE_RADIUS_MIN : ℚ := 18
def BLACK_HOLE_RADIUS_MAX : ℚ := 30
def BLACK_HOLE_HUE : ℚ := 270
def BLACK_HOLE_SPAWN_CHANCE_BASE : ℚ := 5/100
def BLACK_HOLE_SPAWN_CHANCE_MAX : ℚ := 4/10
def BLACK_HOLE_MIN_DISTANCE_FROM_ORIGIN : ℚ := 2
def BLACK_HOLE_PULL_RADIUS_MULTIPLIER : ℚ := 6
def BLACK_HOLE_PULL_STRENGTH : ℚ := 5/100
def BLACK_HOLE_DRAIN_RADIUS_MULTIPLIER : ℚ := 2
def BLACK_HOLE_DRAIN_RATE : ℚ := 2/10

def PHYSICS_ABSORPTION_RATE : ℚ := 8/100
def PHYSICS_MAX_ABSORPTION_FRAC : ℚ := 15/100
def PHYSICS_ABSORPTION_THRESHOLD : ℚ := 11/10
def PHYSICS_PULL_STRENGTH : ℚ := 15/100
def PHYSICS_PUSH_STRENGTH : ℚ := 3/10
def PHYSICS_ATTRACT_RANGE : ℚ := 30
def PHYSICS_ATTRACT_STRENGTH : ℚ := 2/100
def PHYSICS_DEATH_THRESHOLD : ℚ := 5/10

/-- `DIFFICULTY.getScale(playerRadius)` from GameConfig.js. -/
def difficultyGetScale (playerRadius : ℚ) : ℚ :=
  max 1 (playerRadius / PLAYER_INITIAL_RADIUS)

/-! ## Entity data model (EntityManager.js / ChunkSystem.js)

Entities are plain records with boolean kind flags, exactly as in the
source.  The JS chunk key is the string `"cx,cy"`; the string-building
is injective on integer pairs, so the key is modelled as the pair. -/

structure Entity where
  x : ℚ
  y : ℚ
  vx : ℚ
  vy : ℚ
  r : ℚ
  isPlayer : Bool
  isFood : Bool
  isEnemy : Bool
  isBlackHole : Bool
  hue : ℚ
  chunkKey : Option (ℤ × ℤ)
deriving DecidableEq

/-- `createFood` from ChunkSystem.js. -/
def createFood (x y radius hue : ℚ) (key : ℤ × ℤ) : Entity :=
  ⟨x, y, 0, 0, radius, false, true, false, false, hue, some key⟩

/-- `createEnemy` from ChunkSystem.js. -/
def createEnemy (x y radius hue vx vy : ℚ) (key : ℤ × ℤ) : Entity :=
  ⟨x, y, vx, vy, radius, false, false, true, false, hue, some key⟩

/-- `createBlackHole` from ChunkSystem.js. -/
def createBlackHole (x y radius : ℚ) (key : ℤ × ℤ) : Entity :=
  ⟨x, y, 0, 0, radius, false, false, false, true, BLACK_HOLE_HUE, some key⟩

/-- `createPlayer` from EntityManager.js. -/
def createPlayer (x y : ℚ) : Entity :=
  ⟨x, y, 0, 0, PLAYER_INITIAL_RADIUS, true, false, false, false, PLAYER_HUE, none⟩

/-! ## Chunk system (ChunkSystem.js) -/

/-- The deterministic per-chunk seed `cx * 73856093 + cy * 19349663`. -/
def chunkSeed (cx cy : ℤ) : ℚ :=
  (cx : ℚ) * 73856093 + (cy : ℚ) * 19349663

/-- `worldToChunk` from ChunkSystem.js. -/
def worldToChunk (worldX worldY : ℚ) : ℤ × ℤ :=
  (⌊worldX / CHUNK_SIZE⌋, ⌊worldY / CHUNK_SIZE⌋)

/-- The food-generation loop of `generateChunk`.  `rng` stands for
`seededRandom` and `sqrtF` for `Math.sqrt` (used via
`DIFFICULTY.getFoodScale`). -/
def genFoodList (rng sqrtF : ℚ → ℚ) (cx cy : ℤ) (playerRadius : ℚ) : List Entity :=
  let seed := chunkSeed cx cy
  let chunkWorldX := (cx : ℚ) * CHUNK_SIZE
  let chunkWorldY := (cy : ℚ) * CHUNK_SIZE
  let foodScale := sqrtF (difficultyGetScale playerRadius)
  let foodCount := ((FOOD_COUNT_MIN : ℤ) +
    ⌊rng seed * ((FOOD_COUNT_MAX : ℚ) - (FOOD_COUNT_MIN : ℚ) + 1)⌋).toNat
  (List.range foodCount).map (fun (i : ℕ) =>
    let localSeed := seed + (i : ℚ) * 1000
    createFood (chunkWorldX + rng localSeed * CHUNK_SIZE)
      (chunkWorldY + rng (localSeed + 1) * CHUNK_SIZE)
      ((FOOD_RADIUS_MIN + rng (localSeed + 2) * (FOOD_RADIUS_MAX - FOOD_RADIUS_MIN)) * foodScale)
      (FOOD_HUE_MIN + rng (localSeed + 3) * (FOOD_HUE_MAX - FOOD_HUE_MIN))
      (cx, cy))

/-- The enemy-generation block of `generateChunk`. -/
def genEnemyList (rng sqrtF : ℚ → ℚ) (cx cy : ℤ) (playerRadius : ℚ) : List Entity :=
  let seed := chunkSeed cx cy
  let chunkWorldX := (cx : ℚ) * CHUNK_SIZE
  let chunkWorldY := (cy : ℚ) * CHUNK_SIZE
  let difficultyScale := difficultyGetScale playerRadius
  let enemyScale := difficultyGetScale playerRadius
  let distFromOrigin := sqrtF ((cx : ℚ) * (cx : ℚ) + (cy : ℚ) * (cy : ℚ))
  let enemyChance := min ENEMY_SPAWN_CHANCE_MAX
    (distFromOrigin * ENEMY_SPAWN_CHANCE_BASE + (difficultyScale - 1) * (1/10))
  if rng (seed + 5000) < enemyChance then
    let enemyCount := 1 + (if (6/10 : ℚ) < rng (seed + 5001) then 1 else 0)
    (List.range enemyCount).map (fun (i : ℕ) =>
      let localSeed := seed + 5000 + (i : ℚ) * 100
      let baseSize := (ENEMY_BASE_SIZE + distFromOrigin * ENEMY_DISTANCE_SCALE) * enemyScale
      let sizeVariation := rng (localSeed + 4) * ENEMY_SIZE_VARIATION * enemyScale
      let rawSize := baseSize + sizeVariation
      let radius := max (playerRadius * ENEMY_SIZE_MIN_FRAC)
        (min (playerRadius * ENEMY_SIZE_MAX_FRAC) rawSize)
      createEnemy (chunkWorldX + rng localSeed * CHUNK_SIZE)
        (chunkWorldY + rng (localSeed + 1) * CHUNK_SIZE)
        radius
        (ENEMY_HUE_MIN + rng (localSeed + 4) * (ENEMY_HUE_MAX - ENEMY_HUE_MIN))
        ((rng (localSeed + 2) - 1/2) * ENEMY_INITIAL_VELOCITY)
        ((rng (localSeed + 3) - 1/2) * ENEMY_INITIAL_VELOCITY)
        (cx, cy))
  else []

/-- The black-hole-generation block of `generateChunk`. -/
def genBlackHoleList (rng sqrtF : ℚ → ℚ) (cx cy : ℤ) (playerRadius : ℚ) : List Entity :=
  let seed := chunkSeed cx cy
  let chunkWorldX := (cx : ℚ) * CHUNK_SIZE
  let chunkWorldY := (cy : ℚ) * CHUNK_SIZE
  let difficultyScale := difficultyGetScale playerRadius
  let blackHoleScale := sqrtF (difficultyGetScale playerRadius)
  let distFromOrigin := sqrtF ((cx : ℚ) * (cx : ℚ) + (cy : ℚ) * (cy : ℚ))
  let blackHoleChance := min BLACK_HOLE_SPAWN_CHANCE_MAX
    (distFromOrigin * BLACK_HOLE_SPAWN_CHANCE_BASE + (difficultyScale - 1) * (5/100))
  if BLACK_HOLE_MIN_DISTANCE_FROM_ORIGIN < distFromOrigin ∧
      rng (seed + 9000) < blackHoleChance then
    let localSeed := seed + 9000
    let baseRadius := BLACK_HOLE_RADIUS_MIN +
      rng (localSeed + 2) * (BLACK_HOLE_RADIUS_MAX - BLACK_HOLE_RADIUS_MIN)
    [createBlackHole (chunkWorldX + rng localSeed * CHUNK_SIZE)
      (chunkWorldY + rng (localSeed + 1) * CHUNK_SIZE)
      (baseRadius * blackHoleScale) (cx, cy)]
  else []

/-- `generateChunk(cx, cy, playerRadius)` from ChunkSystem.js: food,
then enemies, then black holes, appended in generation order. -/
def generateChunk (rng sqrtF : ℚ → ℚ) (cx cy : ℤ) (playerRadius : ℚ) : List Entity :=
  genFoodList rng sqrtF cx cy playerRadius ++
  genEnemyList rng sqrtF cx cy playerRadius ++
  genBlackHoleList rng sqrtF cx cy playerRadius

/-- The `loadRadius` computed by both `getChunksToLoad` and
`getChunksToUnload`: `max(BASE_LOAD_RADIUS, ceil(viewRadius/CHUNK.SIZE)+1)`. -/
def loadRadiusOf (viewRadius : ℚ) : ℤ :=
  max CHUNK_BASE_LOAD_RADIUS (⌈viewRadius / CHUNK_SIZE⌉ + 1)

/-- `ChunkManager.getChunksToLoad`: enumerate the square of side
`2*loadRadius+1` around the camera's chunk and keep the not-yet-loaded
coordinates.  The loaded set is the manager's `loadedChunks` key set. -/
def getChunksToLoad (loaded : List (ℤ × ℤ)) (cameraX cameraY viewRadius : ℚ) :
    List (ℤ × ℤ) :=
  let loadRadius := loadRadiusOf viewRadius
  let camChunk := worldToChunk cameraX cameraY
  (List.range (2 * loadRadius + 1).toNat).flatMap (fun (i : ℕ) =>
    (List.range (2 * loadRadius + 1).toNat).filterMap (fun (j : ℕ) =>
      let c := (camChunk.1 - loadRadius + (i : ℤ), camChunk.2 - loadRadius + (j : ℤ))
      if c ∈ loaded then none else some c))

/-- `ChunkManager.getChunksToUnload`: loaded chunks farther than
`loadRadius + UNLOAD_BUFFER` from the camera chunk on either axis. -/
def getChunksToUnload (loaded : List (ℤ × ℤ)) (cameraX cameraY viewRadius : ℚ) :
    List (ℤ × ℤ) :=
  let unloadRadius := loadRadiusOf viewRadius + CHUNK_UNLOAD_BUFFER
  let camChunk := worldToChunk cameraX cameraY
  loaded.filter (fun k =>
    unloadRadius < |k.1 - camChunk.1| ∨ unloadRadius < |k.2 - camChunk.2|)

/-- Chebyshev distance between chunk coordinates. -/
def chebDist (a b : ℤ × ℤ) : ℤ :=
  max |a.1 - b.1| |a.2 - b.2|

/-! ## Physics system (PhysicsSystem.js)

`sqrtF` abstracts `Math.sqrt`.  Division in the embedding is rational
division (total, with `q / 0 = 0`); every theorem and concrete witness
below keeps divisors nonzero where the JS code's are. -/

/-- The `larger` selection of `handleCollision`: `a.r >= b.r ? a : b`. -/
def largerOf (a b : Entity) : Entity :=
  if b.r ≤ a.r then a else b

/-- The `smaller` selection of `handleCollision`: `a.r >= b.r ? b : a`. -/
def smallerOf (a b : Entity) : Entity :=
  if b.r ≤ a.r then b else a

/-- The `canAbsorb` condition of `handleCollision`: the larger entity is
the Player and the smaller is Food, or the larger is the Player, the
smaller an Enemy, and `larger.r > smaller.r * ABSORPTION_THRESHOLD`. -/
def canAbsorb (larger smaller : Entity) : Bool :=
  (larger.isPlayer && smaller.isFood) ||
  (larger.isPlayer && smaller.isEnemy &&
    decide (smaller.r * PHYSICS_ABSORPTION_THRESHOLD < larger.r))

/-- The `playerGetsEaten` condition of `handleCollision`. -/
def playerGetsEaten (larger smaller : Entity) : Bool :=
  smaller.isPlayer && larger.isEnemy &&
    decide (smaller.r * PHYSICS_ABSORPTION_THRESHOLD < larger.r)

/-- `distSq` as computed in `handleCollision` (`dx*dx + dy*dy` with
`dx = b.x - a.x`, `dy = b.y - a.y`). -/
def collisionDistSq (a b : Entity) : ℚ :=
  (b.x - a.x) * (b.x - a.x) + (b.y - a.y) * (b.y - a.y)

/-- `dist = Math.sqrt(distSq)` in `handleCollision`. -/
def collisionDist (sqrtF : ℚ → ℚ) (a b : Entity) : ℚ :=
  sqrtF (collisionDistSq a b)

/-- `surfaceDist = dist - a.r - b.r` in `handleCollision`. -/
def surfaceDistance (sqrtF : ℚ → ℚ) (a b : Entity) : ℚ :=
  collisionDist sqrtF a b - a.r - b.r

/-- The `transferRate` of the absorption branch:
`min(overlap * ABSORPTION_RATE * dt, smaller.r * MAX_ABSORPTION_RATIO)`
where `overlap = -surfaceDist`. -/
def absorbAmount (sqrtF : ℚ → ℚ) (a b : Entity) (dt : ℚ) : ℚ :=
  min (-surfaceDistance sqrtF a b * PHYSICS_ABSORPTION_RATE * dt)
    ((smallerOf a b).r * PHYSICS_MAX_ABSORPTION_FRAC)

/-- The `transferRate` of the player-gets-eaten branch:
`min(overlap * ABSORPTION_RATE * 0.75 * dt, smaller.r * MAX_ABSORPTION_RATIO * 0.67)`. -/
def eatenAmount (sqrtF : ℚ → ℚ) (a b : Entity) (dt : ℚ) : ℚ :=
  min (-surfaceDistance sqrtF a b * PHYSICS_ABSORPTION_RATE * (75/100) * dt)
    ((smallerOf a b).r * PHYSICS_MAX_ABSORPTION_FRAC * (67/100))

/-- The result of `handleCollision`: the two (possibly mutated) entities
plus the returned record `{areaTransferred, isAbsorption, playerScored}`. -/
structure CollisionOutcome where
  newA : Entity
  newB : Entity
  areaTransferred : ℚ
  isAbsorption : Bool
  playerScored : Bool
deriving DecidableEq

/-- `handleCollision(a, b, dt)` from PhysicsSystem.js.  The JS code
mutates `a` and `b` in place through the `larger`/`smaller` aliases;
here the updated pair is returned.  `smaller === a` corresponds to
`¬(b.r ≤ a.r)`. -/
def handleCollision (sqrtF : ℚ → ℚ) (a b : Entity) (dt : ℚ) : CollisionOutcome :=
  let dx := b.x - a.x
  let dy := b.y - a.y
  let dist := collisionDist sqrtF a b
  let surfaceDist := surfaceDistance sqrtF a b
  let larger := largerOf a b
  let smaller := smallerOf a b
  if surfaceDist < 0 then
    if canAbsorb larger smaller then
      let transferRate := absorbAmount sqrtF a b dt
      if 1/100 < transferRate ∧ PHYSICS_DEATH_THRESHOLD < smaller.r then
        let smallerAreaBefore := smaller.r * smaller.r
        let newSmallerR := smaller.r - transferRate
        let smallerAreaAfter := newSmallerR * newSmallerR
        let areaT := smallerAreaBefore - smallerAreaAfter
        let larger1 := { larger with r := sqrtF (larger.r * larger.r + areaT) }
        let pullStrength := PHYSICS_PULL_STRENGTH * dt
        let invDist := 1 / dist
        let smaller1 :=
          if 1/10 < dist then
            if b.r ≤ a.r then
              { smaller with
                r := newSmallerR
                vx := smaller.vx - dx * invDist * pullStrength
                vy := smaller.vy - dy * invDist * pullStrength }
            else
              { smaller with
                r := newSmallerR
                vx := smaller.vx + dx * invDist * pullStrength
                vy := smaller.vy + dy * invDist * pullStrength }
          else { smaller with r := newSmallerR }
        if b.r ≤ a.r then ⟨larger1, smaller1, areaT, true, larger.isPlayer⟩
        else ⟨smaller1, larger1, areaT, true, larger.isPlayer⟩
      else ⟨a, b, 0, false, false⟩
    else if playerGetsEaten larger smaller then
      let transferRate := eatenAmount sqrtF a b dt
      if PHYSICS_DEATH_THRESHOLD < smaller.r then
        let smallerAreaBefore := smaller.r * smaller.r
        let newSmallerR := smaller.r - transferRate
        let smallerAreaAfter := newSmallerR * newSmallerR
        let areaT := smallerAreaBefore - smallerAreaAfter
        let larger1 := { larger with r := sqrtF (larger.r * larger.r + areaT) }
        let invDist := 1 / dist
        let smaller1 :=
          if 1/10 < dist then
            if b.r ≤ a.r then
              { smaller with
                r := newSmallerR
                vx := smaller.vx - dx * invDist * (1/10) * dt
                vy := smaller.vy - dy * invDist * (1/10) * dt }
            else
              { smaller with
                r := newSmallerR
                vx := smaller.vx + dx * invDist * (1/10) * dt
                vy := smaller.vy + dy * invDist * (1/10) * dt }
          else { smaller with r := newSmallerR }
        if b.r ≤ a.r then ⟨larger1, smaller1, areaT, false, false⟩
        else ⟨smaller1, larger1, areaT, false, false⟩
      else ⟨a, b, 0, false, false⟩
    else
      let pushStrength := -surfaceDist * PHYSICS_PUSH_STRENGTH * dt
      if 1/10 < dist then
        let invDist := 1 / dist
        ⟨{ a with
            vx := a.vx - dx * invDist * pushStrength
            vy := a.vy - dy * invDist * pushStrength },
         { b with
            vx := b.vx + dx * invDist * pushStrength
            vy := b.vy + dy * invDist * pushStrength }, 0, false, false⟩
      else ⟨a, b, 0, false, false⟩
  else if surfaceDist < PHYSICS_ATTRACT_RANGE ∧ canAbsorb larger smaller then
    let attractStrength := PHYSICS_ATTRACT_STRENGTH * dt / (surfaceDist + 5)
    let invDist := 1 / dist
    if b.r ≤ a.r then
      ⟨a, { b with
          vx := b.vx - dx * invDist * attractStrength
          vy := b.vy - dy * invDist * attractStrength }, 0, false, false⟩
    else
      ⟨{ a with
          vx := a.vx + dx * invDist * attractStrength
          vy := a.vy + dy * invDist * attractStrength }, b, 0, false, false⟩
  else ⟨a, b, 0, false, false⟩

/-- The exact condition under which the absorption branch of
`handleCollision` performs a mass transfer: overlap, `canAbsorb`, the
transfer amount exceeds the noise floor `0.01`, and the victim's radius
exceeds `DEATH_THRESHOLD`. -/
def absorbTransfers (sqrtF : ℚ → ℚ) (a b : Entity) (dt : ℚ) : Prop :=
  surfaceDistance sqrtF a b < 0 ∧
  canAbsorb (largerOf a b) (smallerOf a b) = true ∧
  1/100 < absorbAmount sqrtF a b dt ∧
  PHYSICS_DEATH_THRESHOLD < (smallerOf a b).r

/-- The exact condition under which the player-gets-eaten branch of
`handleCollision` performs a mass transfer: overlap, not `canAbsorb`,
`playerGetsEaten`, and the victim's radius exceeds `DEATH_THRESHOLD`
(note: no noise-floor test on the transfer amount in this branch). -/
def eatenTransfers (sqrtF : ℚ → ℚ) (a b : Entity) (dt : ℚ) : Prop :=
  surfaceDistance sqrtF a b < 0 ∧
  canAbsorb (largerOf a b) (smallerOf a b) = false ∧
  playerGetsEaten (largerOf a b) (smallerOf a b) = true ∧
  PHYSICS_DEATH_THRESHOLD < (smallerOf a b).r

/-- The post-collision state of the entity that was the larger one
before the call. -/
def largerAfter (sqrtF : ℚ → ℚ) (a b : Entity) (dt : ℚ) : Entity :=
  if b.r ≤ a.r then (handleCollision sqrtF a b dt).newA
  else (handleCollision sqrtF a b dt).newB

/-- The post-collision state of the entity that was the smaller one
before the call. -/
def smallerAfter (sqrtF : ℚ → ℚ) (a b : Entity) (dt : ℚ) : Entity :=
  if b.r ≤ a.r then (handleCollision sqrtF a b dt).newB
  else (handleCollision sqrtF a b dt).newA

/-- `applyBlackHoleEffect(blackHole, player, dt)` from PhysicsSystem.js,
returning the updated player and the boolean result. -/
def applyBlackHoleEffect (sqrtF : ℚ → ℚ) (blackHole player : Entity) (dt : ℚ) :
    Entity × Bool :=
  let dx := blackHole.x - player.x
  let dy := blackHole.y - player.y
  let dist := sqrtF (dx * dx + dy * dy)
  let pullRadius := blackHole.r * BLACK_HOLE_PULL_RADIUS_MULTIPLIER
  if dist < pullRadius ∧ 0 < dist then
    let pullStrength := BLACK_HOLE_PULL_STRENGTH * dt * (1 - dist / pullRadius) ^ 2
    let player1 := { player with
      vx := player.vx + dx / dist * pullStrength
      vy := player.vy + dy / dist * pullStrength }
    let drainRadius := blackHole.r * BLACK_HOLE_DRAIN_RADIUS_MULTIPLIER
    if dist < drainRadius then
      let drainRate := BLACK_HOLE_DRAIN_RATE * dt * (1 - dist / drainRadius)
      let newR := player1.r - drainRate
      ({ player1 with r := if newR < PLAYER_MIN_RADIUS then PLAYER_MIN_RADIUS else newR },
       true)
    else (player1, true)
  else (player, false)

/-- `shouldRemoveEntity` from PhysicsSystem.js. -/
def shouldRemoveEntity (entity : Entity) : Bool :=
  !entity.isBlackHole && !entity.isPlayer && decide (entity.r ≤ PHYSICS_DEATH_THRESHOLD)

/-- `isPlayerDead` from PhysicsSystem.js, for a present player entity. -/
def isPlayerDead (player : Entity) : Bool :=
  decide (player.r ≤ PLAYER_MIN_RADIUS)

/-- The per-food squared distance used by `applyPlayerGravity`
(`dx = player.x - entity.x`, `dy = player.y - entity.y`). -/
def gravityDistSq (player entity : Entity) : ℚ :=
  (player.x - entity.x) * (player.x - entity.x) +
  (player.y - entity.y) * (player.y - entity.y)

/-- `dist = Math.sqrt(distSq)` in the `applyPlayerGravity` loop. -/
def gravityDist (sqrtF : ℚ → ℚ) (player entity : Entity) : ℚ :=
  sqrtF (gravityDistSq player entity)

/-- Whether `applyPlayerGravity`'s loop body applies an impulse to (and
counts) `entity`: it is Food and `0 < dist < gravityRange`. -/
def gravityAffected (sqrtF : ℚ → ℚ) (player entity : Entity) : Bool :=
  entity.isFood &&
    decide (0 < gravityDist sqrtF player entity) &&
    decide (gravityDist sqrtF player entity < player.r * GRAVITY_RANGE_MULTIPLIER)

/-- The loop body of `applyPlayerGravity` for one entity: Food within
`0 < dist < gravityRange` receives an inward impulse scaled by
`BASE_STRENGTH * massRatio^MASS_POWER * (1 - dist/range)² * dt`; every
other entity is untouched.  `powF` abstracts `Math.pow` (used with the
fractional exponent `MASS_POWER`). -/
def gravityStep (sqrtF : ℚ → ℚ) (powF : ℚ → ℚ → ℚ) (player : Entity) (dt : ℚ)
    (entity : Entity) : Entity :=
  let massRat := player.r / PLAYER_INITIAL_RADIUS
  let gravityStrength := GRAVITY_BASE_STRENGTH * powF massRat GRAVITY_MASS_POWER
  let gravityRange := player.r * GRAVITY_RANGE_MULTIPLIER
  if !entity.isFood then entity
  else
    let dx := player.x - entity.x
    let dy := player.y - entity.y
    let dist := gravityDist sqrtF player entity
    if 0 < dist ∧ dist < gravityRange then
      let normalizedDist := dist / gravityRange
      let falloff := (1 - normalizedDist) ^ 2
      let strength := gravityStrength * falloff * dt
      let invDist := 1 / dist
      { entity with
        vx := entity.vx + dx * invDist * strength
        vy := entity.vy + dy * invDist * strength }
    else entity

/-- `applyPlayerGravity(player, entities, dt)` from PhysicsSystem.js,
returning the updated entity list and the `affectedCount`.  `powF`
abstracts `Math.pow` (used with the fractional exponent `MASS_POWER`).
Each loop iteration reads only the player and the current entity, so
the loop is a map; the count increments exactly for Food entities with
`0 < dist < gravityRange`. -/
def applyPlayerGravity (sqrtF : ℚ → ℚ) (powF : ℚ → ℚ → ℚ) (player : Entity)
    (entities : List Entity) (dt : ℚ) : List Entity × ℕ :=
  if !GRAVITY_ENABLED || decide (player.r < GRAVITY_MIN_RADIUS_TO_ACTIVATE) then
    (entities, 0)
  else
    (entities.map (gravityStep sqrtF powF player dt),
     entities.countP (gravityAffected sqrtF player))

/-! ## Friction (PhysicsSystem.js `applyFriction`), over the reals

`Math.pow(friction, dt)` with a real exponent is embedded with the real
power function, so the frame-rate-independence law is stated exactly
over the reals ("exactly over the reals, within floating-point
tolerance in the implementation"). -/

/-- An entity as seen by `applyFriction`: only velocity is touched. -/
structure EntityR where
  x : ℝ
  y : ℝ
  vx : ℝ
  vy : ℝ
  r : ℝ

/-- `applyFriction(entity, dt, friction)`: `v *= friction^dt`. -/
noncomputable def applyFriction (entity : EntityR) (dt friction : ℝ) : EntityR :=
  let factor := friction ^ dt
  { entity with vx := entity.vx * factor, vy := entity.vy * factor }

/-! ## Spatial hash (EntityManager.js)

`forEachCollisionPair` is embedded as the list of (index, entity) pairs
on which it invokes its callback, in invocation order.  JS object
identity (`other === entity`) is the index into the entity array;
the JS `Map` grid cell lists hold entities in insertion order, which is
index order; the string pair key `"x1,y1-x2,y2"` is the pair of
position pairs (number-to-string rendering is injective here). -/

def SPATIAL_CELL_SIZE : ℚ := 80

/-- `getEntityCellKeys` from EntityManager.js: all spatial-hash cells
the entity's bounding square overlaps, cx-major. -/
def getEntityCellKeys (entity : Entity) : List (ℤ × ℤ) :=
  let minCx := ⌊(entity.x - entity.r) / SPATIAL_CELL_SIZE⌋
  let maxCx := ⌊(entity.x + entity.r) / SPATIAL_CELL_SIZE⌋
  let minCy := ⌊(entity.y - entity.r) / SPATIAL_CELL_SIZE⌋
  let maxCy := ⌊(entity.y + entity.r) / SPATIAL_CELL_SIZE⌋
  (List.range (maxCx + 1 - minCx).toNat).flatMap (fun (i : ℕ) =>
    (List.range (maxCy + 1 - minCy).toNat).map (fun (j : ℕ) =>
      (minCx + (i : ℤ), minCy + (j : ℤ))))

/-- The cell list built by `updateSpatialGrid` for key `k`: the
non-BlackHole entities registered in `k`, in insertion (= index)
order, each with its index. -/
def cellOccupants (entities : List Entity) (k : ℤ × ℤ) : List (ℕ × Entity) :=
  entities.enum.filter (fun p =>
    !p.2.isBlackHole && decide (k ∈ getEntityCellKeys p.2))

/-- The canonical pair key of `forEachCollisionPair`:
`entity.x < other.x || (entity.x === other.x && entity.y < other.y)`
orders the two position tuples. -/
def pairKeyOf (e o : Entity) : (ℚ × ℚ) × (ℚ × ℚ) :=
  if e.x < o.x ∨ (e.x = o.x ∧ e.y < o.y) then ((e.x, e.y), (o.x, o.y))
  else ((o.x, o.y), (e.x, e.y))

/-- The visit order of `forEachCollisionPair`'s loop nest, before the
`checkedPairs` dedup: for each non-BlackHole entity (in array order),
for each of its cells, for each non-identical non-BlackHole occupant
of that cell, the pair (entity, other) with indices. -/
def collisionEncounters (entities : List Entity) : List ((ℕ × Entity) × (ℕ × Entity)) :=
  entities.enum.flatMap (fun p =>
    if p.2.isBlackHole then []
    else (getEntityCellKeys p.2).flatMap (fun k =>
      (cellOccupants entities k).filterMap (fun q =>
        if q.1 = p.1 || q.2.isBlackHole then none else some (p, q))))

/-- The `checkedPairs` set logic: keep the first element of each key,
in stream order. -/
def dedupByKey {α κ : Type} [DecidableEq κ] (kf : α → κ) : List κ → List α → List α
  | _, [] => []
  | seen, e :: es =>
    if kf e ∈ seen then dedupByKey kf seen es
    else e :: dedupByKey kf (kf e :: seen) es

/-- The index pairs on which `forEachCollisionPair` invokes its
callback, in invocation order. -/
def collisionPairs (entities : List Entity) : List (ℕ × ℕ) :=
  (dedupByKey (fun pr => pairKeyOf pr.1.2 pr.2.2) [] (collisionEncounters entities)).map
    (fun pr => (pr.1.1, pr.2.1))

/-- Brute-force candidacy: the two entities share at least one
spatial-hash cell. -/
def sharesCell (e f : Entity) : Bool :=
  (getEntityCellKeys e).any (fun k => decide (k ∈ getEntityCellKeys f))

/-- Concrete food entity at the origin, used in the spatial-hash
dedup analysis: same position as `entB`. -/
def entA : Entity := ⟨0, 0, 0, 0, 1, false, true, false, false, 110, none⟩

/-- Concrete food entity at the origin: coincides in position with
`entA` but is a distinct entity (different hue). -/
def entB : Entity := ⟨0, 0, 0, 0, 1, false, true, false, false, 120, none⟩

/-- Concrete food entity at (10, 0): shares spatial-hash cells with
both `entA` and `entB`. -/
def entC : Entity := ⟨10, 0, 0, 0, 1, false, true, false, false, 130, none⟩

/-! ## Theorems -/

/-- C9: for every camera position, view radius and loaded-chunk set,
`getChunksToLoad` returns only chunks at Chebyshev distance at most
`loadRadius` from the camera chunk and not already loaded, while
`getChunksToUnload` returns only loaded chunks at Chebyshev distance
strictly greater than `loadRadius + CHUNK.UNLOAD_BUFFER`; consequently
the two results are disjoint and a loaded chunk inside the hysteresis
band is neither re-loaded nor unloaded. -/
theorem chunk_load_unload_hysteresis (loaded : List (ℤ × ℤ))
    (cameraX cameraY viewRadius : ℚ) :
    (∀ c ∈ getChunksToLoad loaded cameraX cameraY viewRadius,
      chebDist c (worldToChunk cameraX cameraY) ≤ loadRadiusOf viewRadius ∧
      c ∉ loaded) ∧
    (∀ k ∈ getChunksToUnload loaded cameraX cameraY viewRadius,
      k ∈ loaded ∧
      loadRadiusOf viewRadius + CHUNK_UNLOAD_BUFFER <
        chebDist k (worldToChunk cameraX cameraY)) ∧
    (∀ c ∈ getChunksToLoad loaded cameraX cameraY viewRadius,
      c ∉ getChunksToUnload loaded cameraX cameraY viewRadius) := by
  have hL : ∀ c ∈ getChunksToLoad loaded cameraX cameraY viewRadius,
      chebDist c (worldToChunk cameraX cameraY) ≤ loadRadiusOf viewRadius ∧
      c ∉ loaded := by
    intro c hc
    simp only [getChunksToLoad, List.mem_flatMap, List.mem_filterMap,
      List.mem_range] at hc
    obtain ⟨i, hi, j, hj, hcj⟩ := hc
    by_cases hmem : ((worldToChunk cameraX cameraY).1 - loadRadiusOf viewRadius + (i : ℤ),
        (worldToChunk cameraX cameraY).2 - loadRadiusOf viewRadius + (j : ℤ)) ∈ loaded
    · simp [hmem] at hcj
    · simp only [hmem, if_false, Option.some_inj] at hcj
      subst hcj
      refine ⟨?_, hmem⟩
      have h2 : 0 ≤ loadRadiusOf viewRadius := by
        have h1 : (CHUNK_BASE_LOAD_RADIUS : ℤ) ≤ loadRadiusOf viewRadius := le_max_left _ _
        have hb : (0 : ℤ) ≤ CHUNK_BASE_LOAD_RADIUS := by norm_num [CHUNK_BASE_LOAD_RADIUS]
        omega
      simp only [chebDist, max_le_iff, abs_le]
      omega
  have hU : ∀ k ∈ getChunksToUnload loaded cameraX cameraY viewRadius,
      k ∈ loaded ∧
      loadRadiusOf viewRadius + CHUNK_UNLOAD_BUFFER <
        chebDist k (worldToChunk cameraX cameraY) := by
    intro k hk
    simp only [getChunksToUnload, List.mem_filter, decide_eq_true_eq] at hk
    refine ⟨hk.1, ?_⟩
    have := hk.2
    simp only [chebDist]
    rcases this with h | h
    · have : |k.1 - (worldToChunk cameraX cameraY).1| ≤
        max |k.1 - (worldToChunk cameraX cameraY).1|
          |k.2 - (worldToChunk cameraX cameraY).2| := le_max_left _ _
      omega
    · have : |k.2 - (worldToChunk cameraX cameraY).2| ≤
        max |k.1 - (worldToChunk cameraX cameraY).1|
          |k.2 - (worldToChunk cameraX cameraY).2| := le_max_right _ _
      omega
  refine ⟨hL, hU, ?_⟩
  intro c hc hcu
  exact (hL c hc).2 (hU c hcu).1

/-- Witness for C9 at a concrete state: with chunks (0,0) and (10,10)
loaded and the camera at the origin with zero view radius, chunk
(10,10) is reported for unload, is indeed loaded, and lies strictly
outside the hysteresis band. -/
theorem chunk_load_unload_hysteresis_witness :
    ((10, 10) : ℤ × ℤ) ∈ [((0, 0) : ℤ × ℤ), (10, 10)] ∧
    loadRadiusOf 0 + CHUNK_UNLOAD_BUFFER < chebDist (10, 10) (worldToChunk 0 0) :=
  (chunk_load_unload_hysteresis [(0, 0), (10, 10)] 0 0 0).2.1 (10, 10) (by
    simp [getChunksToUnload, loadRadiusOf, worldToChunk, CHUNK_SIZE,
      CHUNK_UNLOAD_BUFFER, CHUNK_BASE_LOAD_RADIUS])

/-- C3: `applyFriction` is frame-rate independent: for every entity,
every friction coefficient in (0,1) and every split `t1 + t2` of the
elapsed time, applying friction with `dt = t1` and then `dt = t2`
equals applying it once with `dt = t1 + t2`, exactly over the reals
(`friction^t1 * friction^t2 = friction^(t1+t2)`). -/
theorem applyFriction_frame_rate_independent (e : EntityR) (t1 t2 f : ℝ)
    (h0 : 0 < f) (h1 : f < 1) :
    applyFriction (applyFriction e t1 f) t2 f = applyFriction e (t1 + t2) f := by
  cases e with
  | mk x y vx vy r =>
    simp only [applyFriction, Real.rpow_add h0, EntityR.mk.injEq,
      eq_self_iff_true, true_and, and_true]
    exact ⟨by ring, by ring⟩

/-- Witness for C3 at `friction = 1/2`, `t1 = t2 = 1/2`: two half-steps
equal one full step. -/
theorem applyFriction_frame_rate_independent_witness :
    (0:ℝ) < 1/2 ∧ (1/2:ℝ) < 1 ∧
    applyFriction (applyFriction ⟨0, 0, 1, 1, 1⟩ (1/2) (1/2)) (1/2) (1/2) =
      applyFriction ⟨0, 0, 1, 1, 1⟩ (1/2 + 1/2) (1/2) :=
  ⟨one_half_pos, one_half_lt_one,
    applyFriction_frame_rate_independent ⟨0, 0, 1, 1, 1⟩ (1/2) (1/2) (1/2)
      one_half_pos one_half_lt_one⟩


/-- `handleCollision` never writes the `x`/`y` fields of either entity. -/
theorem handleCollision_preserves_positions (sqrtF : ℚ → ℚ) (a b : Entity) (dt : ℚ) :
    (handleCollision sqrtF a b dt).newA.x = a.x ∧
    (handleCollision sqrtF a b dt).newA.y = a.y ∧
    (handleCollision sqrtF a b dt).newB.x = b.x ∧
    (handleCollision sqrtF a b dt).newB.y = b.y := by
  by_cases hab : b.r ≤ a.r <;>
    simp only [handleCollision, largerOf, smallerOf, hab, if_true, if_false] <;>
    split_ifs <;> simp

/-- In the absorption branch, the larger entity's new radius is
`sqrt(larger.r² + areaTransferred)` with
`areaTransferred = smaller.r² - (smaller.r - transferRate)²`. -/
theorem largerAfter_r_absorb (sqrtF : ℚ → ℚ) (a b : Entity) (dt : ℚ)
    (h : absorbTransfers sqrtF a b dt) :
    (largerAfter sqrtF a b dt).r =
      sqrtF ((largerOf a b).r * (largerOf a b).r +
        ((smallerOf a b).r * (smallerOf a b).r -
         ((smallerOf a b).r - absorbAmount sqrtF a b dt) *
         ((smallerOf a b).r - absorbAmount sqrtF a b dt))) := by
  unfold absorbTransfers at h
  obtain ⟨h1, h2, h3, h4⟩ := h
  rw [one_div] at h3
  by_cases hab : b.r ≤ a.r <;>
    simp only [largerOf, smallerOf, hab, if_true, if_false] at h2 h4 ⊢ <;>
    simp [largerAfter, handleCollision, largerOf, smallerOf, hab, h1, h2, h3, h4]

/-- In the player-gets-eaten branch, the larger entity's new radius is
`sqrt(larger.r² + areaTransferred)` with the eaten-branch transfer rate. -/
theorem largerAfter_r_eaten (sqrtF : ℚ → ℚ) (a b : Entity) (dt : ℚ)
    (h : eatenTransfers sqrtF a b dt) :
    (largerAfter sqrtF a b dt).r =
      sqrtF ((largerOf a b).r * (largerOf a b).r +
        ((smallerOf a b).r * (smallerOf a b).r -
         ((smallerOf a b).r - eatenAmount sqrtF a b dt) *
         ((smallerOf a b).r - eatenAmount sqrtF a b dt))) := by
  unfold eatenTransfers at h
  obtain ⟨h1, h2, h3, h4⟩ := h
  by_cases hab : b.r ≤ a.r <;>
    simp only [largerOf, smallerOf, hab, if_true, if_false] at h2 h3 h4 ⊢ <;>
    simp [largerAfter, handleCollision, largerOf, smallerOf, hab, h1, h2, h3, h4]

/-- When neither transfer condition holds, the larger entity's radius is
unchanged. -/
theorem largerAfter_r_none (sqrtF : ℚ → ℚ) (a b : Entity) (dt : ℚ)
    (hA : ¬ absorbTransfers sqrtF a b dt) (hE : ¬ eatenTransfers sqrtF a b dt) :
    (largerAfter sqrtF a b dt).r = (largerOf a b).r := by
  by_cases hs : surfaceDistance sqrtF a b < 0
  · by_cases hca : canAbsorb (largerOf a b) (smallerOf a b) = true
    · by_cases hnd : 1/100 < absorbAmount sqrtF a b dt ∧
        PHYSICS_DEATH_THRESHOLD < (smallerOf a b).r
      · exact absurd ⟨hs, hca, hnd.1, hnd.2⟩ hA
      · rw [one_div] at hnd
        by_cases hab : b.r ≤ a.r <;>
          simp only [largerOf, smallerOf, hab, if_true, if_false] at hca hnd ⊢ <;>
          simp [largerAfter, handleCollision, largerOf, smallerOf, hab, hs, hca, hnd]
    · by_cases hpe : playerGetsEaten (largerOf a b) (smallerOf a b) = true
      · by_cases hdt : PHYSICS_DEATH_THRESHOLD < (smallerOf a b).r
        · exact absurd ⟨hs, Bool.eq_false_iff.mpr hca, hpe, hdt⟩ hE
        · by_cases hab : b.r ≤ a.r <;>
            simp only [largerOf, smallerOf, hab, if_true, if_false] at hca hpe hdt ⊢ <;>
            simp [largerAfter, handleCollision, largerOf, smallerOf, hab, hs, hca, hpe, hdt]
      · by_cases hab : b.r ≤ a.r <;>
          simp only [largerOf, smallerOf, hab, if_true, if_false] at hca hpe ⊢ <;>
          simp [largerAfter, handleCollision, largerOf, smallerOf, hab, hs, hca, hpe] <;>
          split_ifs <;> simp
  · by_cases hab : b.r ≤ a.r <;>
      simp [largerAfter, handleCollision, largerOf, smallerOf, hab, hs] <;>
      split_ifs <;> simp

/-- In the absorption branch, the smaller entity's new radius is
`smaller.r - transferRate`. -/
theorem smallerAfter_r_absorb (sqrtF : ℚ → ℚ) (a b : Entity) (dt : ℚ)
    (h : absorbTransfers sqrtF a b dt) :
    (smallerAfter sqrtF a b dt).r = (smallerOf a b).r - absorbAmount sqrtF a b dt := by
  unfold absorbTransfers at h
  obtain ⟨h1, h2, h3, h4⟩ := h
  rw [one_div] at h3
  by_cases hab : b.r ≤ a.r <;>
    simp only [largerOf, smallerOf, hab, if_true, if_false] at h2 h4 ⊢ <;>
    simp [smallerAfter, handleCollision, largerOf, smallerOf, hab, h1, h2, h3, h4] <;>
    split_ifs <;> simp

/-- In the player-gets-eaten branch, the smaller entity's new radius is
`smaller.r - transferRate` with the eaten-branch rate. -/
theorem smallerAfter_r_eaten (sqrtF : ℚ → ℚ) (a b : Entity) (dt : ℚ)
    (h : eatenTransfers sqrtF a b dt) :
    (smallerAfter sqrtF a b dt).r = (smallerOf a b).r - eatenAmount sqrtF a b dt := by
  unfold eatenTransfers at h
  obtain ⟨h1, h2, h3, h4⟩ := h
  by_cases hab : b.r ≤ a.r <;>
    simp only [largerOf, smallerOf, hab, if_true, if_false] at h2 h3 h4 ⊢ <;>
    simp [smallerAfter, handleCollision, largerOf, smallerOf, hab, h1, h2, h3, h4] <;>
    split_ifs <;> simp

/-- When neither transfer condition holds, the smaller entity's radius
is unchanged. -/
theorem smallerAfter_r_none (sqrtF : ℚ → ℚ) (a b : Entity) (dt : ℚ)
    (hA : ¬ absorbTransfers sqrtF a b dt) (hE : ¬ eatenTransfers sqrtF a b dt) :
    (smallerAfter sqrtF a b dt).r = (smallerOf a b).r := by
  by_cases hs : surfaceDistance sqrtF a b < 0
  · by_cases hca : canAbsorb (largerOf a b) (smallerOf a b) = true
    · by_cases hnd : 1/100 < absorbAmount sqrtF a b dt ∧
        PHYSICS_DEATH_THRESHOLD < (smallerOf a b).r
      · exact absurd ⟨hs, hca, hnd.1, hnd.2⟩ hA
      · rw [one_div] at hnd
        by_cases hab : b.r ≤ a.r <;>
          simp only [largerOf, smallerOf, hab, if_true, if_false] at hca hnd ⊢ <;>
          simp [smallerAfter, handleCollision, largerOf, smallerOf, hab, hs, hca, hnd]
    · by_cases hpe : playerGetsEaten (largerOf a b) (smallerOf a b) = true
      · by_cases hdt : PHYSICS_DEATH_THRESHOLD < (smallerOf a b).r
        · exact absurd ⟨hs, Bool.eq_false_iff.mpr hca, hpe, hdt⟩ hE
        · by_cases hab : b.r ≤ a.r <;>
            simp only [largerOf, smallerOf, hab, if_true, if_false] at hca hpe hdt ⊢ <;>
            simp [smallerAfter, handleCollision, largerOf, smallerOf, hab, hs, hca, hpe, hdt]
      · by_cases hab : b.r ≤ a.r <;>
          simp only [largerOf, smallerOf, hab, if_true, if_false] at hca hpe ⊢ <;>
          simp [smallerAfter, handleCollision, largerOf, smallerOf, hab, hs, hca, hpe] <;>
          split_ifs <;> simp
  · by_cases hab : b.r ≤ a.r <;>
      simp [smallerAfter, handleCollision, largerOf, smallerOf, hab, hs] <;>
      split_ifs <;> simp

/-- In the absorption branch, the returned `areaTransferred` is
`smaller.r² - (smaller.r - transferRate)²`. -/
theorem areaTransferred_absorb (sqrtF : ℚ → ℚ) (a b : Entity) (dt : ℚ)
    (h : absorbTransfers sqrtF a b dt) :
    (handleCollision sqrtF a b dt).areaTransferred =
      (smallerOf a b).r * (smallerOf a b).r -
      ((smallerOf a b).r - absorbAmount sqrtF a b dt) *
      ((smallerOf a b).r - absorbAmount sqrtF a b dt) := by
  unfold absorbTransfers at h
  obtain ⟨h1, h2, h3, h4⟩ := h
  rw [one_div] at h3
  by_cases hab : b.r ≤ a.r <;>
    simp only [largerOf, smallerOf, hab, if_true, if_false] at h2 h4 ⊢ <;>
    simp [handleCollision, largerOf, smallerOf, hab, h1, h2, h3, h4]

/-- In the player-gets-eaten branch, the returned `areaTransferred` is
`smaller.r² - (smaller.r - transferRate)²` with the eaten-branch rate. -/
theorem areaTransferred_eaten (sqrtF : ℚ → ℚ) (a b : Entity) (dt : ℚ)
    (h : eatenTransfers sqrtF a b dt) :
    (handleCollision sqrtF a b dt).areaTransferred =
      (smallerOf a b).r * (smallerOf a b).r -
      ((smallerOf a b).r - eatenAmount sqrtF a b dt) *
      ((smallerOf a b).r - eatenAmount sqrtF a b dt) := by
  unfold eatenTransfers at h
  obtain ⟨h1, h2, h3, h4⟩ := h
  by_cases hab : b.r ≤ a.r <;>
    simp only [largerOf, smallerOf, hab, if_true, if_false] at h2 h3 h4 ⊢ <;>
    simp [handleCollision, largerOf, smallerOf, hab, h1, h2, h3, h4]

/-- When neither transfer condition holds, `areaTransferred` is zero. -/
theorem areaTransferred_none (sqrtF : ℚ → ℚ) (a b : Entity) (dt : ℚ)
    (hA : ¬ absorbTransfers sqrtF a b dt) (hE : ¬ eatenTransfers sqrtF a b dt) :
    (handleCollision sqrtF a b dt).areaTransferred = 0 := by
  by_cases hs : surfaceDistance sqrtF a b < 0
  · by_cases hca : canAbsorb (largerOf a b) (smallerOf a b) = true
    · by_cases hnd : 1/100 < absorbAmount sqrtF a b dt ∧
        PHYSICS_DEATH_THRESHOLD < (smallerOf a b).r
      · exact absurd ⟨hs, hca, hnd.1, hnd.2⟩ hA
      · rw [one_div] at hnd
        by_cases hab : b.r ≤ a.r <;>
          simp only [largerOf, smallerOf, hab, if_true, if_false] at hca hnd ⊢ <;>
          simp [handleCollision, largerOf, smallerOf, hab, hs, hca, hnd]
    · by_cases hpe : playerGetsEaten (largerOf a b) (smallerOf a b) = true
      · by_cases hdt : PHYSICS_DEATH_THRESHOLD < (smallerOf a b).r
        · exact absurd ⟨hs, Bool.eq_false_iff.mpr hca, hpe, hdt⟩ hE
        · by_cases hab : b.r ≤ a.r <;>
            simp only [largerOf, smallerOf, hab, if_true, if_false] at hca hpe hdt ⊢ <;>
            simp [handleCollision, largerOf, smallerOf, hab, hs, hca, hpe, hdt]
      · by_cases hab : b.r ≤ a.r <;>
          simp only [largerOf, smallerOf, hab, if_true, if_false] at hca hpe ⊢ <;>
          simp [handleCollision, largerOf, smallerOf, hab, hs, hca, hpe] <;>
          split_ifs <;> simp
  · by_cases hab : b.r ≤ a.r <;>
      simp [handleCollision, largerOf, smallerOf, hab, hs] <;>
      split_ifs <;> simp

/-- C10: `handleCollision` never modifies the position of either
entity; it modifies a radius only when the circles overlap
(`surfaceDist < 0`, i.e. `dist < a.r + b.r`) in an absorption-eligible
configuration (`canAbsorb` or `playerGetsEaten`); with separated
surfaces both radii are unchanged (only velocities can move, via the
pre-contact attraction); and a pair neither overlapping nor within
`ATTRACT_RANGE` is returned completely unchanged. -/
theorem handleCollision_frame_effect (sqrtF : ℚ → ℚ) (a b : Entity) (dt : ℚ) :
    ((handleCollision sqrtF a b dt).newA.x = a.x ∧
     (handleCollision sqrtF a b dt).newA.y = a.y ∧
     (handleCollision sqrtF a b dt).newB.x = b.x ∧
     (handleCollision sqrtF a b dt).newB.y = b.y) ∧
    (((handleCollision sqrtF a b dt).newA.r ≠ a.r ∨
      (handleCollision sqrtF a b dt).newB.r ≠ b.r) →
      surfaceDistance sqrtF a b < 0 ∧
      (canAbsorb (largerOf a b) (smallerOf a b) = true ∨
       playerGetsEaten (largerOf a b) (smallerOf a b) = true)) ∧
    (0 ≤ surfaceDistance sqrtF a b →
      (handleCollision sqrtF a b dt).newA.r = a.r ∧
      (handleCollision sqrtF a b dt).newB.r = b.r) ∧
    (PHYSICS_ATTRACT_RANGE ≤ surfaceDistance sqrtF a b →
      handleCollision sqrtF a b dt = ⟨a, b, 0, false, false⟩) := by
  have hnone : ¬ absorbTransfers sqrtF a b dt → ¬ eatenTransfers sqrtF a b dt →
      (handleCollision sqrtF a b dt).newA.r = a.r ∧
      (handleCollision sqrtF a b dt).newB.r = b.r := by
    intro hA hE
    have hL := largerAfter_r_none sqrtF a b dt hA hE
    have hS := smallerAfter_r_none sqrtF a b dt hA hE
    by_cases hab : b.r ≤ a.r <;>
      simp only [largerAfter, smallerAfter, largerOf, smallerOf, hab,
        if_true, if_false] at hL hS <;>
      first
      | exact ⟨hL, hS⟩
      | exact ⟨hS, hL⟩
  refine ⟨handleCollision_preserves_positions sqrtF a b dt, ?_, ?_, ?_⟩
  · intro h
    by_cases hA : absorbTransfers sqrtF a b dt
    · exact ⟨hA.1, Or.inl hA.2.1⟩
    by_cases hE : eatenTransfers sqrtF a b dt
    · exact ⟨hE.1, Or.inr hE.2.2.1⟩
    · rcases h with h | h
      · exact absurd (hnone hA hE).1 h
      · exact absurd (hnone hA hE).2 h
  · intro h0
    have hA : ¬ absorbTransfers sqrtF a b dt := fun hA => absurd hA.1 (not_lt.mpr h0)
    have hE : ¬ eatenTransfers sqrtF a b dt := fun hE => absurd hE.1 (not_lt.mpr h0)
    exact hnone hA hE
  · intro h
    have h0 : ¬ surfaceDistance sqrtF a b < 0 :=
      not_lt.mpr (le_trans (by norm_num [PHYSICS_ATTRACT_RANGE]) h)
    have h2 : ¬ (surfaceDistance sqrtF a b < PHYSICS_ATTRACT_RANGE ∧
        canAbsorb (largerOf a b) (smallerOf a b) = true) :=
      fun hc => absurd hc.1 (not_lt.mpr h)
    by_cases hab : b.r ≤ a.r <;>
      simp [handleCollision, largerOf, smallerOf, hab, h0, h2] <;>
      intro hlt _ <;>
      exact absurd hlt (not_lt.mpr h)

/-- Witness for C10 at a concrete separated pair (surface distance 98):
the collision call is the identity. -/
theorem handleCollision_frame_effect_witness :
    PHYSICS_ATTRACT_RANGE ≤
      surfaceDistance (fun q => if q = 10000 then 100 else 0)
        ⟨0, 0, 0, 0, 1, false, true, false, false, 110, none⟩
        ⟨100, 0, 0, 0, 1, false, true, false, false, 110, none⟩ ∧
    handleCollision (fun q => if q = 10000 then 100 else 0)
        ⟨0, 0, 0, 0, 1, false, true, false, false, 110, none⟩
        ⟨100, 0, 0, 0, 1, false, true, false, false, 110, none⟩ 1 =
      ⟨⟨0, 0, 0, 0, 1, false, true, false, false, 110, none⟩,
       ⟨100, 0, 0, 0, 1, false, true, false, false, 110, none⟩, 0, false, false⟩ := by
  have h : PHYSICS_ATTRACT_RANGE ≤
      surfaceDistance (fun q => if q = 10000 then 100 else 0)
        ⟨0, 0, 0, 0, 1, false, true, false, false, 110, none⟩
        ⟨100, 0, 0, 0, 1, false, true, false, false, 110, none⟩ := by
    norm_num [surfaceDistance, collisionDist, collisionDistSq, PHYSICS_ATTRACT_RANGE]
  exact ⟨h, (handleCollision_frame_effect (fun q => if q = 10000 then 100 else 0)
    ⟨0, 0, 0, 0, 1, false, true, false, false, 110, none⟩
    ⟨100, 0, 0, 0, 1, false, true, false, false, 110, none⟩ 1).2.2.2 h⟩

/-- C2: whenever `handleCollision` performs a mass transfer (absorption
by the larger entity, or the player being eaten), and `sqrtF` squares
back correctly at the one point where the code calls it for the new
radius, the larger entity's new radius satisfies
`new_larger_r² = larger.r² + (smaller.r_before² - smaller.r_after²)`:
the sum of squared radii (hence total area `pi*r²`) is invariant. -/
theorem handleCollision_area_conservation (sqrtF : ℚ → ℚ) (a b : Entity) (dt : ℚ)
    (hOcc : (handleCollision sqrtF a b dt).areaTransferred ≠ 0)
    (hsq : sqrtF ((largerOf a b).r * (largerOf a b).r +
        (handleCollision sqrtF a b dt).areaTransferred) *
      sqrtF ((largerOf a b).r * (largerOf a b).r +
        (handleCollision sqrtF a b dt).areaTransferred) =
      (largerOf a b).r * (largerOf a b).r +
        (handleCollision sqrtF a b dt).areaTransferred) :
    (largerAfter sqrtF a b dt).r * (largerAfter sqrtF a b dt).r =
      (largerOf a b).r * (largerOf a b).r +
      ((smallerOf a b).r * (smallerOf a b).r -
       (smallerAfter sqrtF a b dt).r * (smallerAfter sqrtF a b dt).r) := by
  by_cases hA : absorbTransfers sqrtF a b dt
  · rw [areaTransferred_absorb sqrtF a b dt hA] at hsq
    rw [largerAfter_r_absorb sqrtF a b dt hA, smallerAfter_r_absorb sqrtF a b dt hA]
    exact hsq
  by_cases hE : eatenTransfers sqrtF a b dt
  · rw [areaTransferred_eaten sqrtF a b dt hE] at hsq
    rw [largerAfter_r_eaten sqrtF a b dt hE, smallerAfter_r_eaten sqrtF a b dt hE]
    exact hsq
  · exact absurd (areaTransferred_none sqrtF a b dt hA hE) hOcc

/-- Witness for C2: a Player of radius 39001/8000 absorbing Food of
radius 3 at distance 5 with dt = 3 transfers area 999/400; the new
player radius 40999/8000 satisfies the conservation law exactly. -/
theorem handleCollision_area_conservation_witness :
    (handleCollision
        (fun q => if q = 25 then 5 else if q = 1680918001/64000000 then 40999/8000 else 0)
        ⟨0, 0, 0, 0, 39001/8000, true, false, false, false, 200, none⟩
        ⟨3, 4, 0, 0, 3, false, true, false, false, 110, none⟩ 3).areaTransferred ≠ 0 ∧
    (largerAfter
        (fun q => if q = 25 then 5 else if q = 1680918001/64000000 then 40999/8000 else 0)
        ⟨0, 0, 0, 0, 39001/8000, true, false, false, false, 200, none⟩
        ⟨3, 4, 0, 0, 3, false, true, false, false, 110, none⟩ 3).r *
      (largerAfter
        (fun q => if q = 25 then 5 else if q = 1680918001/64000000 then 40999/8000 else 0)
        ⟨0, 0, 0, 0, 39001/8000, true, false, false, false, 200, none⟩
        ⟨3, 4, 0, 0, 3, false, true, false, false, 110, none⟩ 3).r =
      (largerOf ⟨0, 0, 0, 0, 39001/8000, true, false, false, false, 200, none⟩
          ⟨3, 4, 0, 0, 3, false, true, false, false, 110, none⟩).r *
        (largerOf ⟨0, 0, 0, 0, 39001/8000, true, false, false, false, 200, none⟩
          ⟨3, 4, 0, 0, 3, false, true, false, false, 110, none⟩).r +
      ((smallerOf ⟨0, 0, 0, 0, 39001/8000, true, false, false, false, 200, none⟩
          ⟨3, 4, 0, 0, 3, false, true, false, false, 110, none⟩).r *
        (smallerOf ⟨0, 0, 0, 0, 39001/8000, true, false, false, false, 200, none⟩
          ⟨3, 4, 0, 0, 3, false, true, false, false, 110, none⟩).r -
       (smallerAfter
          (fun q => if q = 25 then 5 else if q = 1680918001/64000000 then 40999/8000 else 0)
          ⟨0, 0, 0, 0, 39001/8000, true, false, false, false, 200, none⟩
          ⟨3, 4, 0, 0, 3, false, true, false, false, 110, none⟩ 3).r *
        (smallerAfter
          (fun q => if q = 25 then 5 else if q = 1680918001/64000000 then 40999/8000 else 0)
          ⟨0, 0, 0, 0, 39001/8000, true, false, false, false, 200, none⟩
          ⟨3, 4, 0, 0, 3, false, true, false, false, 110, none⟩ 3).r) := by
  have hOcc : (handleCollision
      (fun q => if q = 25 then 5 else if q = 1680918001/64000000 then 40999/8000 else 0)
      ⟨0, 0, 0, 0, 39001/8000, true, false, false, false, 200, none⟩
      ⟨3, 4, 0, 0, 3, false, true, false, false, 110, none⟩ 3).areaTransferred ≠ 0 := by
    norm_num [handleCollision, surfaceDistance, collisionDist, collisionDistSq,
      largerOf, smallerOf, canAbsorb, playerGetsEaten, absorbAmount, eatenAmount,
      PHYSICS_ABSORPTION_RATE, PHYSICS_MAX_ABSORPTION_FRAC, PHYSICS_ABSORPTION_THRESHOLD,
      PHYSICS_DEATH_THRESHOLD, PHYSICS_PULL_STRENGTH, min_def]
  have hsq : (fun q => if q = 25 then 5 else
        if q = (1680918001:ℚ)/64000000 then (40999:ℚ)/8000 else 0)
      ((largerOf ⟨0, 0, 0, 0, 39001/8000, true, false, false, false, 200, none⟩
          ⟨3, 4, 0, 0, 3, false, true, false, false, 110, none⟩).r *
        (largerOf ⟨0, 0, 0, 0, 39001/8000, true, false, false, false, 200, none⟩
          ⟨3, 4, 0, 0, 3, false, true, false, false, 110, none⟩).r +
        (handleCollision
          (fun q => if q = 25 then 5 else if q = 1680918001/64000000 then 40999/8000 else 0)
          ⟨0, 0, 0, 0, 39001/8000, true, false, false, false, 200, none⟩
          ⟨3, 4, 0, 0, 3, false, true, false, false, 110, none⟩ 3).areaTransferred) *
      (fun q => if q = 25 then 5 else
        if q = (1680918001:ℚ)/64000000 then (40999:ℚ)/8000 else 0)
      ((largerOf ⟨0, 0, 0, 0, 39001/8000, true, false, false, false, 200, none⟩
          ⟨3, 4, 0, 0, 3, false, true, false, false, 110, none⟩).r *
        (largerOf ⟨0, 0, 0, 0, 39001/8000, true, false, false, false, 200, none⟩
          ⟨3, 4, 0, 0, 3, false, true, false, false, 110, none⟩).r +
        (handleCollision
          (fun q => if q = 25 then 5 else if q = 1680918001/64000000 then 40999/8000 else 0)
          ⟨0, 0, 0, 0, 39001/8000, true, false, false, false, 200, none⟩
          ⟨3, 4, 0, 0, 3, false, true, false, false, 110, none⟩ 3).areaTransferred) =
      (largerOf ⟨0, 0, 0, 0, 39001/8000, true, false, false, false, 200, none⟩
          ⟨3, 4, 0, 0, 3, false, true, false, false, 110, none⟩).r *
        (largerOf ⟨0, 0, 0, 0, 39001/8000, true, false, false, false, 200, none⟩
          ⟨3, 4, 0, 0, 3, false, true, false, false, 110, none⟩).r +
        (handleCollision
          (fun q => if q = 25 then 5 else if q = 1680918001/64000000 then 40999/8000 else 0)
          ⟨0, 0, 0, 0, 39001/8000, true, false, false, false, 200, none⟩
          ⟨3, 4, 0, 0, 3, false, true, false, false, 110, none⟩ 3).areaTransferred := by
    norm_num [handleCollision, surfaceDistance, collisionDist, collisionDistSq,
      largerOf, smallerOf, canAbsorb, playerGetsEaten, absorbAmount, eatenAmount,
      PHYSICS_ABSORPTION_RATE, PHYSICS_MAX_ABSORPTION_FRAC, PHYSICS_ABSORPTION_THRESHOLD,
      PHYSICS_DEATH_THRESHOLD, PHYSICS_PULL_STRENGTH, min_def]
  exact ⟨hOcc, handleCollision_area_conservation
    (fun q => if q = 25 then 5 else if q = 1680918001/64000000 then 40999/8000 else 0)
    ⟨0, 0, 0, 0, 39001/8000, true, false, false, false, 200, none⟩
    ⟨3, 4, 0, 0, 3, false, true, false, false, 110, none⟩ 3 hOcc hsq⟩

/-- C4: for a Player-Enemy pair (the smaller entity is not Food), the
1.1 absorption threshold is strictly exclusive: when the larger radius
is at most `1.1 *` the smaller radius — in particular at exactly the
ratio 1.1 — `handleCollision` changes neither radius; and `canAbsorb`
holds for a Player-larger/Enemy-smaller pair exactly when the larger
radius strictly exceeds `1.1 *` the smaller radius. -/
theorem absorption_threshold_exclusive (sqrtF : ℚ → ℚ) (a b : Entity) (dt : ℚ)
    (hfood : (smallerOf a b).isFood = false) :
    ((largerOf a b).r ≤ (smallerOf a b).r * PHYSICS_ABSORPTION_THRESHOLD →
      (largerAfter sqrtF a b dt).r = (largerOf a b).r ∧
      (smallerAfter sqrtF a b dt).r = (smallerOf a b).r) ∧
    ((largerOf a b).isPlayer = true → (smallerOf a b).isEnemy = true →
      (canAbsorb (largerOf a b) (smallerOf a b) = true ↔
        (smallerOf a b).r * PHYSICS_ABSORPTION_THRESHOLD < (largerOf a b).r)) := by
  constructor
  · intro hle
    have hA : ¬ absorbTransfers sqrtF a b dt := by
      rintro ⟨-, hca, -, -⟩
      simp only [canAbsorb, hfood, Bool.and_false, Bool.false_or, Bool.and_eq_true,
        decide_eq_true_eq] at hca
      exact absurd hca.2 (not_lt.mpr hle)
    have hE : ¬ eatenTransfers sqrtF a b dt := by
      rintro ⟨-, -, hpe, -⟩
      simp only [playerGetsEaten, Bool.and_eq_true, decide_eq_true_eq] at hpe
      exact absurd hpe.2 (not_lt.mpr hle)
    exact ⟨largerAfter_r_none sqrtF a b dt hA hE, smallerAfter_r_none sqrtF a b dt hA hE⟩
  · intro hp he
    constructor
    · intro hca
      simp only [canAbsorb, hfood, Bool.and_false, Bool.false_or, Bool.and_eq_true,
        decide_eq_true_eq] at hca
      exact hca.2
    · intro hlt
      simp [canAbsorb, hp, he, hlt]

/-- Witness for C4: a Player of radius 11/5 overlapping an Enemy of
radius exactly 2 (ratio exactly 1.1) at distance 3: both radii are
unchanged by the collision. -/
theorem absorption_threshold_exclusive_witness :
    (smallerOf ⟨0, 0, 0, 0, 11/5, true, false, false, false, 200, none⟩
        ⟨0, 3, 0, 0, 2, false, false, true, false, 350, none⟩).isFood = false ∧
    (largerOf ⟨0, 0, 0, 0, 11/5, true, false, false, false, 200, none⟩
        ⟨0, 3, 0, 0, 2, false, false, true, false, 350, none⟩).r ≤
      (smallerOf ⟨0, 0, 0, 0, 11/5, true, false, false, false, 200, none⟩
        ⟨0, 3, 0, 0, 2, false, false, true, false, 350, none⟩).r *
        PHYSICS_ABSORPTION_THRESHOLD ∧
    (largerAfter (fun q => if q = 9 then 3 else 0)
        ⟨0, 0, 0, 0, 11/5, true, false, false, false, 200, none⟩
        ⟨0, 3, 0, 0, 2, false, false, true, false, 350, none⟩ 1).r =
      (largerOf ⟨0, 0, 0, 0, 11/5, true, false, false, false, 200, none⟩
        ⟨0, 3, 0, 0, 2, false, false, true, false, 350, none⟩).r ∧
    (smallerAfter (fun q => if q = 9 then 3 else 0)
        ⟨0, 0, 0, 0, 11/5, true, false, false, false, 200, none⟩
        ⟨0, 3, 0, 0, 2, false, false, true, false, 350, none⟩ 1).r =
      (smallerOf ⟨0, 0, 0, 0, 11/5, true, false, false, false, 200, none⟩
        ⟨0, 3, 0, 0, 2, false, false, true, false, 350, none⟩).r := by
  have hfood : (smallerOf ⟨0, 0, 0, 0, 11/5, true, false, false, false, 200, none⟩
      ⟨0, 3, 0, 0, 2, false, false, true, false, 350, none⟩).isFood = false := by
    norm_num [smallerOf]
  have hle : (largerOf ⟨0, 0, 0, 0, 11/5, true, false, false, false, 200, none⟩
      ⟨0, 3, 0, 0, 2, false, false, true, false, 350, none⟩).r ≤
      (smallerOf ⟨0, 0, 0, 0, 11/5, true, false, false, false, 200, none⟩
        ⟨0, 3, 0, 0, 2, false, false, true, false, 350, none⟩).r *
        PHYSICS_ABSORPTION_THRESHOLD := by
    norm_num [largerOf, smallerOf, PHYSICS_ABSORPTION_THRESHOLD]
  obtain ⟨h1, h2⟩ := (absorption_threshold_exclusive (fun q => if q = 9 then 3 else 0)
    ⟨0, 0, 0, 0, 11/5, true, false, false, false, 200, none⟩
    ⟨0, 3, 0, 0, 2, false, false, true, false, 350, none⟩ 1 hfood).1 hle
  exact ⟨hfood, hle, h1, h2⟩

/-- C5 counterexample: a Player of radius 2 at (0,0) eaten by an Enemy
of radius 31/10 at (3,4) with dt = 1: the surfaces overlap by 1/10, the
computed transfer is 3/500, which does NOT exceed the noise floor 1/100,
yet the player's radius still changes (the player-gets-eaten branch has
no noise-floor test), contradicting the claim that in both transfer
cases the mass transfer is applied only if the amount exceeds 0.01. -/
theorem transfer_noise_floor_counterexample :
    eatenAmount (fun q => if q = 25 then 5 else 0)
        ⟨0, 0, 0, 0, 2, true, false, false, false, 200, none⟩
        ⟨3, 4, 0, 0, 31/10, false, false, true, false, 350, none⟩ 1 ≤ 1/100 ∧
    PHYSICS_DEATH_THRESHOLD <
      (smallerOf ⟨0, 0, 0, 0, 2, true, false, false, false, 200, none⟩
        ⟨3, 4, 0, 0, 31/10, false, false, true, false, 350, none⟩).r ∧
    (smallerAfter (fun q => if q = 25 then 5 else 0)
        ⟨0, 0, 0, 0, 2, true, false, false, false, 200, none⟩
        ⟨3, 4, 0, 0, 31/10, false, false, true, false, 350, none⟩ 1).r = 997/500 ∧
    (smallerOf ⟨0, 0, 0, 0, 2, true, false, false, false, 200, none⟩
        ⟨3, 4, 0, 0, 31/10, false, false, true, false, 350, none⟩).r = 2 := by
  refine ⟨?_, ?_, ?_, ?_⟩
  · norm_num [eatenAmount, surfaceDistance, collisionDist, collisionDistSq,
      smallerOf, PHYSICS_ABSORPTION_RATE, PHYSICS_MAX_ABSORPTION_FRAC, min_def]
  · norm_num [smallerOf, PHYSICS_DEATH_THRESHOLD]
  · norm_num [smallerAfter, handleCollision, surfaceDistance, collisionDist,
      collisionDistSq, largerOf, smallerOf, canAbsorb, playerGetsEaten,
      absorbAmount, eatenAmount, PHYSICS_ABSORPTION_RATE, PHYSICS_MAX_ABSORPTION_FRAC,
      PHYSICS_ABSORPTION_THRESHOLD, PHYSICS_DEATH_THRESHOLD, min_def]
  · norm_num [smallerOf]

/-- C5 (amended): a radius change in `handleCollision` requires
overlap, a victim radius above the death threshold, and — in the
absorption branch only — a transfer amount above the noise floor 0.01;
the player-gets-eaten branch applies the victim-radius check but no
noise-floor check. -/
theorem transfer_gating_amended (sqrtF : ℚ → ℚ) (a b : Entity) (dt : ℚ)
    (h : (largerAfter sqrtF a b dt).r ≠ (largerOf a b).r ∨
      (smallerAfter sqrtF a b dt).r ≠ (smallerOf a b).r) :
    surfaceDistance sqrtF a b < 0 ∧
    PHYSICS_DEATH_THRESHOLD < (smallerOf a b).r ∧
    (canAbsorb (largerOf a b) (smallerOf a b) = true →
      1/100 < absorbAmount sqrtF a b dt) := by
  by_cases hA : absorbTransfers sqrtF a b dt
  · exact ⟨hA.1, hA.2.2.2, fun _ => hA.2.2.1⟩
  by_cases hE : eatenTransfers sqrtF a b dt
  · refine ⟨hE.1, hE.2.2.2, ?_⟩
    intro hca
    have := hE.2.1
    rw [hca] at this
    cases this
  · rcases h with h | h
    · exact absurd (largerAfter_r_none sqrtF a b dt hA hE) h
    · exact absurd (smallerAfter_r_none sqrtF a b dt hA hE) h

/-- Witness for the amended C5 at the concrete eaten-player scenario:
the player's radius changed, so overlap and the victim-radius condition
must hold (and the noise-floor implication is vacuous since `canAbsorb`
is false there). -/
theorem transfer_gating_amended_witness :
    (smallerAfter (fun q => if q = 25 then 5 else 0)
        ⟨0, 0, 0, 0, 2, true, false, false, false, 200, none⟩
        ⟨3, 4, 0, 0, 31/10, false, false, true, false, 350, none⟩ 1).r ≠
      (smallerOf ⟨0, 0, 0, 0, 2, true, false, false, false, 200, none⟩
        ⟨3, 4, 0, 0, 31/10, false, false, true, false, 350, none⟩).r ∧
    (surfaceDistance (fun q => if q = 25 then 5 else 0)
        ⟨0, 0, 0, 0, 2, true, false, false, false, 200, none⟩
        ⟨3, 4, 0, 0, 31/10, false, false, true, false, 350, none⟩ < 0 ∧
     PHYSICS_DEATH_THRESHOLD <
      (smallerOf ⟨0, 0, 0, 0, 2, true, false, false, false, 200, none⟩
        ⟨3, 4, 0, 0, 31/10, false, false, true, false, 350, none⟩).r ∧
     (canAbsorb (largerOf ⟨0, 0, 0, 0, 2, true, false, false, false, 200, none⟩
          ⟨3, 4, 0, 0, 31/10, false, false, true, false, 350, none⟩)
        (smallerOf ⟨0, 0, 0, 0, 2, true, false, false, false, 200, none⟩
          ⟨3, 4, 0, 0, 31/10, false, false, true, false, 350, none⟩) = true →
       1/100 < absorbAmount (fun q => if q = 25 then 5 else 0)
        ⟨0, 0, 0, 0, 2, true, false, false, false, 200, none⟩
        ⟨3, 4, 0, 0, 31/10, false, false, true, false, 350, none⟩ 1)) := by
  have h : (smallerAfter (fun q => if q = 25 then 5 else 0)
      ⟨0, 0, 0, 0, 2, true, false, false, false, 200, none⟩
      ⟨3, 4, 0, 0, 31/10, false, false, true, false, 350, none⟩ 1).r ≠
      (smallerOf ⟨0, 0, 0, 0, 2, true, false, false, false, 200, none⟩
        ⟨3, 4, 0, 0, 31/10, false, false, true, false, 350, none⟩).r := by
    norm_num [smallerAfter, handleCollision, surfaceDistance, collisionDist,
      collisionDistSq, largerOf, smallerOf, canAbsorb, playerGetsEaten,
      absorbAmount, eatenAmount, PHYSICS_ABSORPTION_RATE, PHYSICS_MAX_ABSORPTION_FRAC,
      PHYSICS_ABSORPTION_THRESHOLD, PHYSICS_DEATH_THRESHOLD, min_def]
  exact ⟨h, transfer_gating_amended (fun q => if q = 25 then 5 else 0)
    ⟨0, 0, 0, 0, 2, true, false, false, false, 200, none⟩
    ⟨3, 4, 0, 0, 31/10, false, false, true, false, 350, none⟩ 1 (Or.inr h)⟩

/-- C6: for every black hole, every player with radius at least
`PLAYER.MIN_RADIUS` and every `dt ≥ 0`, `applyBlackHoleEffect` keeps
the player's radius at or above `PLAYER.MIN_RADIUS`, never increases
it, and leaves it unchanged whenever the distance is not below
`drainRadius = blackHole.r * DRAIN_RADIUS_MULTIPLIER`: drain alone can
reach the floor but never cross it. -/
theorem applyBlackHoleEffect_radius_floor (sqrtF : ℚ → ℚ) (blackHole player : Entity)
    (dt : ℚ) (hdt : 0 ≤ dt) (hr : PLAYER_MIN_RADIUS ≤ player.r) :
    PLAYER_MIN_RADIUS ≤ (applyBlackHoleEffect sqrtF blackHole player dt).1.r ∧
    (applyBlackHoleEffect sqrtF blackHole player dt).1.r ≤ player.r ∧
    (blackHole.r * BLACK_HOLE_DRAIN_RADIUS_MULTIPLIER ≤
        sqrtF ((blackHole.x - player.x) * (blackHole.x - player.x) +
          (blackHole.y - player.y) * (blackHole.y - player.y)) →
      (applyBlackHoleEffect sqrtF blackHole player dt).1.r = player.r) := by
  simp only [applyBlackHoleEffect]
  split_ifs with h1 h2 h3
  · refine ⟨?_, ?_, fun hge => absurd h2 (not_lt.mpr hge)⟩ <;> simp <;> linarith
  · have hdr : (0:ℚ) < blackHole.r * BLACK_HOLE_DRAIN_RADIUS_MULTIPLIER :=
      lt_trans h1.2 h2
    have hq : sqrtF ((blackHole.x - player.x) * (blackHole.x - player.x) +
        (blackHole.y - player.y) * (blackHole.y - player.y)) /
        (blackHole.r * BLACK_HOLE_DRAIN_RADIUS_MULTIPLIER) < 1 :=
      (div_lt_one hdr).mpr h2
    have hrate : 0 ≤ BLACK_HOLE_DRAIN_RATE * dt *
        (1 - sqrtF ((blackHole.x - player.x) * (blackHole.x - player.x) +
          (blackHole.y - player.y) * (blackHole.y - player.y)) /
          (blackHole.r * BLACK_HOLE_DRAIN_RADIUS_MULTIPLIER)) := by
      apply mul_nonneg (mul_nonneg (by norm_num [BLACK_HOLE_DRAIN_RATE]) hdt)
      linarith
    refine ⟨?_, ?_, fun hge => absurd h2 (not_lt.mpr hge)⟩ <;> simp at h3 ⊢ <;> linarith
  · exact ⟨by simpa using hr, by simp, fun _ => by simp⟩
  · exact ⟨by simpa using hr, by simp, fun _ => by simp⟩

/-- Witness for C6: a player of radius 22 at distance 25 inside the
drain radius 50 of a black hole of radius 25, with dt = 1: the radius
decreases from 22 to 219/10 and stays at or above the floor 5. -/
theorem applyBlackHoleEffect_radius_floor_witness :
    (0:ℚ) ≤ 1 ∧
    PLAYER_MIN_RADIUS ≤
      (⟨0, 0, 0, 0, 22, true, false, false, false, 200, none⟩ : Entity).r ∧
    PLAYER_MIN_RADIUS ≤ (applyBlackHoleEffect (fun q => if q = 625 then 25 else 0)
      ⟨25, 0, 0, 0, 25, false, false, false, true, 270, none⟩
      ⟨0, 0, 0, 0, 22, true, false, false, false, 200, none⟩ 1).1.r ∧
    (applyBlackHoleEffect (fun q => if q = 625 then 25 else 0)
      ⟨25, 0, 0, 0, 25, false, false, false, true, 270, none⟩
      ⟨0, 0, 0, 0, 22, true, false, false, false, 200, none⟩ 1).1.r ≤
      (⟨0, 0, 0, 0, 22, true, false, false, false, 200, none⟩ : Entity).r := by
  have h := applyBlackHoleEffect_radius_floor (fun q => if q = 625 then 25 else 0)
    ⟨25, 0, 0, 0, 25, false, false, false, true, 270, none⟩
    ⟨0, 0, 0, 0, 22, true, false, false, false, 200, none⟩ 1
    (by norm_num) (by norm_num [PLAYER_MIN_RADIUS])
  exact ⟨by norm_num, by norm_num [PLAYER_MIN_RADIUS], h.1, h.2.1⟩

/-- The gravity loop body leaves an entity untouched when
`gravityAffected` is false for it. -/
theorem gravityStep_not_affected (sqrtF : ℚ → ℚ) (powF : ℚ → ℚ → ℚ) (p : Entity)
    (dt : ℚ) (e : Entity) (h : gravityAffected sqrtF p e = false) :
    gravityStep sqrtF powF p dt e = e := by
  by_cases hf : e.isFood = true
  · have hc : ¬ (0 < gravityDist sqrtF p e ∧
        gravityDist sqrtF p e < p.r * GRAVITY_RANGE_MULTIPLIER) := by
      intro hc
      simp [gravityAffected, hf, hc.1, hc.2] at h
    simp [gravityStep, hf, hc]
  · simp [gravityStep, hf]

/-- The gravity loop body can only write `vx`/`vy`: every other field
of every entity is preserved. -/
theorem gravityStep_preserves_fields (sqrtF : ℚ → ℚ) (powF : ℚ → ℚ → ℚ) (p : Entity)
    (dt : ℚ) (e : Entity) :
    (gravityStep sqrtF powF p dt e).x = e.x ∧
    (gravityStep sqrtF powF p dt e).y = e.y ∧
    (gravityStep sqrtF powF p dt e).r = e.r ∧
    (gravityStep sqrtF powF p dt e).isPlayer = e.isPlayer ∧
    (gravityStep sqrtF powF p dt e).isFood = e.isFood ∧
    (gravityStep sqrtF powF p dt e).isEnemy = e.isEnemy ∧
    (gravityStep sqrtF powF p dt e).isBlackHole = e.isBlackHole ∧
    (gravityStep sqrtF powF p dt e).hue = e.hue ∧
    (gravityStep sqrtF powF p dt e).chunkKey = e.chunkKey := by
  simp only [gravityStep]
  split_ifs <;> simp

/-- Under a positive time step, a positive `powF` value at the one
point the code calls it, and a square-correct `sqrtF` at the entity's
squared distance, the gravity loop body strictly changes the velocity
of every entity it counts as affected. -/
theorem gravityStep_moves_affected (sqrtF : ℚ → ℚ) (powF : ℚ → ℚ → ℚ) (p : Entity)
    (dt : ℚ) (e : Entity) (hdt : 0 < dt)
    (hpow : 0 < powF (p.r / PLAYER_INITIAL_RADIUS) GRAVITY_MASS_POWER)
    (hsq : sqrtF (gravityDistSq p e) * sqrtF (gravityDistSq p e) = gravityDistSq p e)
    (h : gravityAffected sqrtF p e = true) :
    (gravityStep sqrtF powF p dt e).vx ≠ e.vx ∨
    (gravityStep sqrtF powF p dt e).vy ≠ e.vy := by
  unfold gravityAffected at h
  simp only [Bool.and_eq_true, decide_eq_true_eq] at h
  obtain ⟨⟨hf, hd0⟩, hdr⟩ := h
  have hrange : 0 < p.r * GRAVITY_RANGE_MULTIPLIER := lt_trans hd0 hdr
  have hfall : 0 < (1 - gravityDist sqrtF p e / (p.r * GRAVITY_RANGE_MULTIPLIER)) ^ 2 := by
    have hlt : gravityDist sqrtF p e / (p.r * GRAVITY_RANGE_MULTIPLIER) < 1 :=
      (div_lt_one hrange).mpr hdr
    exact pow_pos (by linarith) 2
  have hstrength : 0 < GRAVITY_BASE_STRENGTH *
      powF (p.r / PLAYER_INITIAL_RADIUS) GRAVITY_MASS_POWER *
      (1 - gravityDist sqrtF p e / (p.r * GRAVITY_RANGE_MULTIPLIER)) ^ 2 * dt := by
    have hb : (0:ℚ) < GRAVITY_BASE_STRENGTH := by norm_num [GRAVITY_BASE_STRENGTH]
    exact mul_pos (mul_pos (mul_pos hb hpow) hfall) hdt
  have hds : 0 < gravityDistSq p e := by
    rw [← hsq]
    exact mul_pos hd0 hd0
  have hinv : (1 : ℚ) / gravityDist sqrtF p e ≠ 0 := one_div_ne_zero (ne_of_gt hd0)
  have hstep : gravityStep sqrtF powF p dt e = { e with
      vx := e.vx + (p.x - e.x) * (1 / gravityDist sqrtF p e) *
        (GRAVITY_BASE_STRENGTH * powF (p.r / PLAYER_INITIAL_RADIUS) GRAVITY_MASS_POWER *
          (1 - gravityDist sqrtF p e / (p.r * GRAVITY_RANGE_MULTIPLIER)) ^ 2 * dt)
      vy := e.vy + (p.y - e.y) * (1 / gravityDist sqrtF p e) *
        (GRAVITY_BASE_STRENGTH * powF (p.r / PLAYER_INITIAL_RADIUS) GRAVITY_MASS_POWER *
          (1 - gravityDist sqrtF p e / (p.r * GRAVITY_RANGE_MULTIPLIER)) ^ 2 * dt) } := by
    simp [gravityStep, hf, hd0, hdr]
  by_cases hdx : p.x - e.x = 0
  · right
    have hdy : p.y - e.y ≠ 0 := by
      intro hdy
      rw [gravityDistSq, hdx, hdy] at hds
      norm_num at hds
    rw [hstep]
    intro hEq
    have hEq2 : e.vy + (p.y - e.y) * (1 / gravityDist sqrtF p e) *
        (GRAVITY_BASE_STRENGTH * powF (p.r / PLAYER_INITIAL_RADIUS) GRAVITY_MASS_POWER *
          (1 - gravityDist sqrtF p e / (p.r * GRAVITY_RANGE_MULTIPLIER)) ^ 2 * dt) =
        e.vy := hEq
    have hz : (p.y - e.y) * (1 / gravityDist sqrtF p e) *
        (GRAVITY_BASE_STRENGTH * powF (p.r / PLAYER_INITIAL_RADIUS) GRAVITY_MASS_POWER *
          (1 - gravityDist sqrtF p e / (p.r * GRAVITY_RANGE_MULTIPLIER)) ^ 2 * dt) = 0 := by
      linarith
    exact mul_ne_zero (mul_ne_zero hdy hinv) (ne_of_gt hstrength) hz
  · left
    rw [hstep]
    intro hEq
    have hEq2 : e.vx + (p.x - e.x) * (1 / gravityDist sqrtF p e) *
        (GRAVITY_BASE_STRENGTH * powF (p.r / PLAYER_INITIAL_RADIUS) GRAVITY_MASS_POWER *
          (1 - gravityDist sqrtF p e / (p.r * GRAVITY_RANGE_MULTIPLIER)) ^ 2 * dt) =
        e.vx := hEq
    have hz : (p.x - e.x) * (1 / gravityDist sqrtF p e) *
        (GRAVITY_BASE_STRENGTH * powF (p.r / PLAYER_INITIAL_RADIUS) GRAVITY_MASS_POWER *
          (1 - gravityDist sqrtF p e / (p.r * GRAVITY_RANGE_MULTIPLIER)) ^ 2 * dt) = 0 := by
      linarith
    exact mul_ne_zero (mul_ne_zero hdx hinv) (ne_of_gt hstrength) hz

/-- Every pair in `l.zip l` has equal components. -/
theorem zip_self_eq {α : Type} : ∀ (l : List α), ∀ pr ∈ l.zip l, pr.1 = pr.2
  | [], pr, h => absurd h (List.not_mem_nil pr)
  | a :: l, pr, h => by
    rcases List.mem_cons.mp h with h | h
    · rw [h]
    · exact zip_self_eq l pr h

/-- Every pair in `l.zip (l.map f)` is of the form `(a, f a)` with
`a ∈ l`. -/
theorem zip_map_mem {α β : Type} (f : α → β) :
    ∀ (l : List α), ∀ pr ∈ l.zip (l.map f), pr.1 ∈ l ∧ pr.2 = f pr.1
  | [], pr, h => absurd h (List.not_mem_nil pr)
  | a :: l, pr, h => by
    rcases List.mem_cons.mp h with h | h
    · rw [h]
      exact ⟨List.mem_cons_self a l, rfl⟩
    · obtain ⟨h1, h2⟩ := zip_map_mem f l pr h
      exact ⟨List.mem_cons_of_mem a h1, h2⟩

/-- Counting over `l.zip (l.map f)` is counting over `l`. -/
theorem countP_zip_map {α β : Type} (f : α → β) (g : α × β → Bool) :
    ∀ (l : List α), (l.zip (l.map f)).countP g = l.countP (fun a => g (a, f a))
  | [] => rfl
  | a :: l => by
    simp only [List.map_cons, List.zip_cons_cons, List.countP_cons,
      countP_zip_map f g l]

/-- C7: `applyPlayerGravity` returns 0 and leaves every entity
untouched when the player's radius is below the activation threshold
30; otherwise it touches only the velocities of Food entities within
gravity range — every other entity, and every field other than Food
`vx`/`vy`, is unchanged — and `affectedCount` counts exactly the Food
entities whose velocity it changed (under a positive `dt`, a positive
`powF` value, and a square-correct `sqrtF` on the entity distances). -/
theorem applyPlayerGravity_spec (sqrtF : ℚ → ℚ) (powF : ℚ → ℚ → ℚ) (p : Entity)
    (es : List Entity) (dt : ℚ) :
    (p.r < GRAVITY_MIN_RADIUS_TO_ACTIVATE →
      applyPlayerGravity sqrtF powF p es dt = (es, 0)) ∧
    (GRAVITY_MIN_RADIUS_TO_ACTIVATE ≤ p.r →
      (applyPlayerGravity sqrtF powF p es dt).2 =
        es.countP (gravityAffected sqrtF p)) ∧
    (∀ pr ∈ es.zip (applyPlayerGravity sqrtF powF p es dt).1,
      (gravityAffected sqrtF p pr.1 = false → pr.2 = pr.1) ∧
      (pr.1.isFood = false → pr.2 = pr.1) ∧
      pr.2.x = pr.1.x ∧ pr.2.y = pr.1.y ∧ pr.2.r = pr.1.r ∧
      pr.2.isPlayer = pr.1.isPlayer ∧ pr.2.isFood = pr.1.isFood ∧
      pr.2.isEnemy = pr.1.isEnemy ∧ pr.2.isBlackHole = pr.1.isBlackHole ∧
      pr.2.hue = pr.1.hue ∧ pr.2.chunkKey = pr.1.chunkKey) ∧
    (0 < dt → 0 < powF (p.r / PLAYER_INITIAL_RADIUS) GRAVITY_MASS_POWER →
      (∀ e ∈ es, sqrtF (gravityDistSq p e) * sqrtF (gravityDistSq p e) =
        gravityDistSq p e) →
      (applyPlayerGravity sqrtF powF p es dt).2 =
        (es.zip (applyPlayerGravity sqrtF powF p es dt).1).countP
          (fun pr => pr.1.isFood &&
            (decide (pr.2.vx ≠ pr.1.vx) || decide (pr.2.vy ≠ pr.1.vy)))) := by
  by_cases hact : p.r < GRAVITY_MIN_RADIUS_TO_ACTIVATE
  · have hres : applyPlayerGravity sqrtF powF p es dt = (es, 0) := by
      simp [applyPlayerGravity, GRAVITY_ENABLED, hact]
    refine ⟨fun _ => hres, fun hge => absurd hact (not_lt.mpr hge), ?_, ?_⟩
    · intro pr hpr
      rw [hres] at hpr
      have := zip_self_eq es pr hpr
      rw [← this]
      simp
    · intro _ _ _
      rw [hres]
      simp only []
      rw [List.countP_eq_zero.mpr]
      intro pr hpr
      have := zip_self_eq es pr hpr
      rw [← this]
      simp
  · have hres : applyPlayerGravity sqrtF powF p es dt =
        (es.map (gravityStep sqrtF powF p dt),
         es.countP (gravityAffected sqrtF p)) := by
      simp [applyPlayerGravity, GRAVITY_ENABLED, hact]
    refine ⟨fun hlt => absurd hlt hact, fun _ => by rw [hres], ?_, ?_⟩
    · intro pr hpr
      rw [hres] at hpr
      obtain ⟨hmem, hstep⟩ := zip_map_mem (gravityStep sqrtF powF p dt) es pr hpr
      have hfields := gravityStep_preserves_fields sqrtF powF p dt pr.1
      rw [← hstep] at hfields
      refine ⟨?_, ?_, hfields.1, hfields.2.1, hfields.2.2.1, hfields.2.2.2.1,
        hfields.2.2.2.2.1, hfields.2.2.2.2.2.1, hfields.2.2.2.2.2.2.1,
        hfields.2.2.2.2.2.2.2.1, hfields.2.2.2.2.2.2.2.2⟩
      · intro hna
        rw [hstep]
        exact gravityStep_not_affected sqrtF powF p dt pr.1 hna
      · intro hnf
        rw [hstep]
        apply gravityStep_not_affected
        simp [gravityAffected, hnf]
    · intro hdt hpow hsq
      rw [hres]
      simp only []
      rw [countP_zip_map]
      apply List.countP_congr
      intro e he
      simp only [Bool.and_eq_true, Bool.or_eq_true, decide_eq_true_eq]
      constructor
      · intro ha
        have hf : e.isFood = true := by
          unfold gravityAffected at ha
          simp only [Bool.and_eq_true] at ha
          exact ha.1.1
        exact ⟨hf, gravityStep_moves_affected sqrtF powF p dt e hdt hpow (hsq e he) ha⟩
      · rintro ⟨hf, hch⟩
        by_cases ha : gravityAffected sqrtF p e = true
        · exact ha
        · exfalso
          have := gravityStep_not_affected sqrtF powF p dt e
            (Bool.eq_false_iff.mpr ha)
          rw [this] at hch
          rcases hch with h | h <;> exact h rfl

/-- Witness for C7: a player of radius 35 (above the threshold 30) with
one Food at distance 5 (inside the 140-unit gravity range): the
returned count equals the `gravityAffected` count, which is 1. -/
theorem applyPlayerGravity_spec_witness :
    GRAVITY_MIN_RADIUS_TO_ACTIVATE ≤
      (⟨0, 0, 0, 0, 35, true, false, false, false, 200, none⟩ : Entity).r ∧
    (applyPlayerGravity (fun q => if q = 25 then 5 else 0) (fun _ _ => 1)
      ⟨0, 0, 0, 0, 35, true, false, false, false, 200, none⟩
      [⟨3, 4, 0, 0, 1, false, true, false, false, 110, none⟩] 1).2 =
      [(⟨3, 4, 0, 0, 1, false, true, false, false, 110, none⟩ : Entity)].countP
        (gravityAffected (fun q => if q = 25 then 5 else 0)
          ⟨0, 0, 0, 0, 35, true, false, false, false, 200, none⟩) ∧
    [(⟨3, 4, 0, 0, 1, false, true, false, false, 110, none⟩ : Entity)].countP
        (gravityAffected (fun q => if q = 25 then 5 else 0)
          ⟨0, 0, 0, 0, 35, true, false, false, false, 200, none⟩) = 1 := by
  have hge : GRAVITY_MIN_RADIUS_TO_ACTIVATE ≤
      (⟨0, 0, 0, 0, 35, true, false, false, false, 200, none⟩ : Entity).r := by
    norm_num [GRAVITY_MIN_RADIUS_TO_ACTIVATE]
  refine ⟨hge, (applyPlayerGravity_spec (fun q => if q = 25 then 5 else 0) (fun _ _ => 1)
    ⟨0, 0, 0, 0, 35, true, false, false, false, 200, none⟩
    [⟨3, 4, 0, 0, 1, false, true, false, false, 110, none⟩] 1).2.1 hge, ?_⟩
  norm_num [List.countP_cons, gravityAffected, gravityDist, gravityDistSq,
    GRAVITY_RANGE_MULTIPLIER]

/-- C1: `generateChunk` is deterministic and draws all randomness from
`chunkSeed cx cy = cx*73856093 + cy*19349663` plus fixed per-draw
natural-number offsets: any two random oracles that agree on the seeds
`chunkSeed cx cy + k` (`k : ℕ`) produce identical entity lists — the
same count and, entity by entity, the same position, velocity, radius,
hue, kind flags and chunk key.  In particular two calls with the same
`(cx, cy, playerRadius)` and the same oracle agree, and no draw depends
on external state. -/
theorem generateChunk_deterministic (rng1 rng2 sqrtF : ℚ → ℚ) (cx cy : ℤ)
    (playerRadius : ℚ)
    (h : ∀ k : ℕ, rng1 (chunkSeed cx cy + k) = rng2 (chunkSeed cx cy + k)) :
    generateChunk rng1 sqrtF cx cy playerRadius =
      generateChunk rng2 sqrtF cx cy playerRadius := by
  have key : ∀ (q : ℚ) (k : ℕ), q = chunkSeed cx cy + k → rng1 q = rng2 q :=
    fun q k hq => hq ▸ h k
  have hfood : genFoodList rng1 sqrtF cx cy playerRadius =
      genFoodList rng2 sqrtF cx cy playerRadius := by
    have h0 : rng1 (chunkSeed cx cy) = rng2 (chunkSeed cx cy) :=
      key (chunkSeed cx cy) 0 (by push_cast; ring)
    simp only [genFoodList, h0]
    apply List.map_congr_left
    intro i _
    have e0 : rng1 (chunkSeed cx cy + (i : ℚ) * 1000) =
        rng2 (chunkSeed cx cy + (i : ℚ) * 1000) :=
      key _ (i * 1000) (by push_cast; ring)
    have e1 : rng1 (chunkSeed cx cy + (i : ℚ) * 1000 + 1) =
        rng2 (chunkSeed cx cy + (i : ℚ) * 1000 + 1) :=
      key _ (i * 1000 + 1) (by push_cast; ring)
    have e2 : rng1 (chunkSeed cx cy + (i : ℚ) * 1000 + 2) =
        rng2 (chunkSeed cx cy + (i : ℚ) * 1000 + 2) :=
      key _ (i * 1000 + 2) (by push_cast; ring)
    have e3 : rng1 (chunkSeed cx cy + (i : ℚ) * 1000 + 3) =
        rng2 (chunkSeed cx cy + (i : ℚ) * 1000 + 3) :=
      key _ (i * 1000 + 3) (by push_cast; ring)
    simp only [e0, e1, e2, e3]
  have henemy : genEnemyList rng1 sqrtF cx cy playerRadius =
      genEnemyList rng2 sqrtF cx cy playerRadius := by
    have e5000 : rng1 (chunkSeed cx cy + 5000) = rng2 (chunkSeed cx cy + 5000) :=
      key _ 5000 (by push_cast; ring)
    have e5001 : rng1 (chunkSeed cx cy + 5001) = rng2 (chunkSeed cx cy + 5001) :=
      key _ 5001 (by push_cast; ring)
    simp only [genEnemyList, e5000, e5001]
    refine if_congr Iff.rfl ?_ rfl
    · apply List.map_congr_left
      intro i _
      have e0 : rng1 (chunkSeed cx cy + 5000 + (i : ℚ) * 100) =
          rng2 (chunkSeed cx cy + 5000 + (i : ℚ) * 100) :=
        key _ (5000 + i * 100) (by push_cast; ring)
      have e1 : rng1 (chunkSeed cx cy + 5000 + (i : ℚ) * 100 + 1) =
          rng2 (chunkSeed cx cy + 5000 + (i : ℚ) * 100 + 1) :=
        key _ (5000 + i * 100 + 1) (by push_cast; ring)
      have e2 : rng1 (chunkSeed cx cy + 5000 + (i : ℚ) * 100 + 2) =
          rng2 (chunkSeed cx cy + 5000 + (i : ℚ) * 100 + 2) :=
        key _ (5000 + i * 100 + 2) (by push_cast; ring)
      have e3 : rng1 (chunkSeed cx cy + 5000 + (i : ℚ) * 100 + 3) =
          rng2 (chunkSeed cx cy + 5000 + (i : ℚ) * 100 + 3) :=
        key _ (5000 + i * 100 + 3) (by push_cast; ring)
      have e4 : rng1 (chunkSeed cx cy + 5000 + (i : ℚ) * 100 + 4) =
          rng2 (chunkSeed cx cy + 5000 + (i : ℚ) * 100 + 4) :=
        key _ (5000 + i * 100 + 4) (by push_cast; ring)
      simp only [e0, e1, e2, e3, e4]
  have hbh : genBlackHoleList rng1 sqrtF cx cy playerRadius =
      genBlackHoleList rng2 sqrtF cx cy playerRadius := by
    have e9000 : rng1 (chunkSeed cx cy + 9000) = rng2 (chunkSeed cx cy + 9000) :=
      key _ 9000 (by push_cast; ring)
    have e9001 : rng1 (chunkSeed cx cy + 9000 + 1) = rng2 (chunkSeed cx cy + 9000 + 1) :=
      key _ 9001 (by push_cast; ring)
    have e9002 : rng1 (chunkSeed cx cy + 9000 + 2) = rng2 (chunkSeed cx cy + 9000 + 2) :=
      key _ 9002 (by push_cast; ring)
    simp only [genBlackHoleList, e9000, e9001, e9002]
  unfold generateChunk
  rw [hfood, henemy, hbh]

/-- Witness for C1 at chunk (0,0) (seed 0): the identity oracle and an
oracle that differs from it on every negative input agree on all seeds
`0 + k` (`k : ℕ`), so they generate identical chunks. -/
theorem generateChunk_deterministic_witness :
    generateChunk (fun q => q) (fun q => q) 0 0 22 =
      generateChunk (fun q => if q < 0 then 99 else q) (fun q => q) 0 0 22 :=
  generateChunk_deterministic (fun q => q) (fun q => if q < 0 then 99 else q)
    (fun q => q) 0 0 22 (fun k => by
      have hk : ¬ (chunkSeed 0 0 + (k : ℚ) < 0) := by
        simp [chunkSeed]
      simp only []
      rw [if_neg hk])

/-- Every element kept by the dedup pass comes from the input stream. -/
theorem dedupByKey_subset {α κ : Type} [DecidableEq κ] (kf : α → κ) :
    ∀ (seen : List κ) (S : List α) (a : α), a ∈ dedupByKey kf seen S → a ∈ S
  | _, [], a, h => absurd h (List.not_mem_nil a)
  | seen, e :: es, a, h => by
    simp only [dedupByKey] at h
    split_ifs at h with hk
    · exact List.mem_cons_of_mem e (dedupByKey_subset kf seen es a h)
    · rcases List.mem_cons.mp h with h | h
      · exact h ▸ List.mem_cons_self e es
      · exact List.mem_cons_of_mem e (dedupByKey_subset kf _ es a h)

/-- The dedup pass keeps exactly one element per key present in the
stream (and none whose key was already seen). -/
theorem dedupByKey_countP {α κ : Type} [DecidableEq κ] (kf : α → κ) (K : κ) :
    ∀ (seen : List κ) (S : List α),
      (dedupByKey kf seen S).countP (fun a => decide (kf a = K)) =
        if K ∈ seen then 0 else min 1 (S.countP (fun a => decide (kf a = K)))
  | seen, [] => by simp [dedupByKey]
  | seen, e :: es => by
    by_cases hk : kf e ∈ seen
    · rw [show dedupByKey kf seen (e :: es) = dedupByKey kf seen es from by
        simp [dedupByKey, hk]]
      rw [dedupByKey_countP kf K seen es]
      by_cases hKs : K ∈ seen
      · rw [if_pos hKs, if_pos hKs]
      · rw [if_neg hKs, if_neg hKs, List.countP_cons]
        have hne : decide (kf e = K) = false := by
          simp only [decide_eq_false_iff_not]
          exact fun h => hKs (h ▸ hk)
        rw [hne]
        simp
    · rw [show dedupByKey kf seen (e :: es) = e :: dedupByKey kf (kf e :: seen) es from by
        simp [dedupByKey, hk]]
      rw [List.countP_cons, dedupByKey_countP kf K (kf e :: seen) es]
      by_cases hke : kf e = K
      · have hKs : K ∉ seen := fun h => hk (hke ▸ h)
        have hmem : K ∈ kf e :: seen := by
          rw [← hke]
          exact List.mem_cons_self _ _
        rw [if_pos hmem, if_neg hKs, List.countP_cons]
        simp [hke]
      · have hmem : (K ∈ kf e :: seen) ↔ K ∈ seen := by
          simp only [List.mem_cons]
          exact ⟨fun h => h.elim (fun h => absurd h.symm hke) id, Or.inr⟩
        have hdec : decide (kf e = K) = false := by simp [hke]
        by_cases hKs : K ∈ seen
        · rw [if_pos (hmem.mpr hKs), if_pos hKs, hdec]
          simp
        · rw [if_neg (fun h => hKs (hmem.mp h)), if_neg hKs, List.countP_cons, hdec]
          simp

/-- The canonical pair key is symmetric in its two entities. -/
theorem pairKeyOf_symm (a b : Entity) : pairKeyOf a b = pairKeyOf b a := by
  rcases lt_trichotomy a.x b.x with hx | hx | hx
  · have c1 : a.x < b.x ∨ (a.x = b.x ∧ a.y < b.y) := Or.inl hx
    have c2 : ¬ (b.x < a.x ∨ (b.x = a.x ∧ b.y < a.y)) := by
      rintro (h | ⟨h, -⟩)
      · exact absurd hx (not_lt.mpr (le_of_lt h))
      · exact absurd hx (by rw [h]; exact lt_irrefl a.x)
    rw [pairKeyOf, if_pos c1, pairKeyOf, if_neg c2]
  · rcases lt_trichotomy a.y b.y with hy | hy | hy
    · have c1 : a.x < b.x ∨ (a.x = b.x ∧ a.y < b.y) := Or.inr ⟨hx, hy⟩
      have c2 : ¬ (b.x < a.x ∨ (b.x = a.x ∧ b.y < a.y)) := by
        rintro (h | ⟨-, h⟩)
        · exact absurd h (by rw [hx]; exact lt_irrefl b.x)
        · exact absurd hy (not_lt.mpr (le_of_lt h))
      rw [pairKeyOf, if_pos c1, pairKeyOf, if_neg c2]
    · have c1 : ¬ (a.x < b.x ∨ (a.x = b.x ∧ a.y < b.y)) := by
        rintro (h | ⟨-, h⟩)
        · exact absurd h (by rw [hx]; exact lt_irrefl b.x)
        · exact absurd h (by rw [hy]; exact lt_irrefl b.y)
      have c2 : ¬ (b.x < a.x ∨ (b.x = a.x ∧ b.y < a.y)) := by
        rintro (h | ⟨-, h⟩)
        · exact absurd h (by rw [hx]; exact lt_irrefl b.x)
        · exact absurd h (by rw [hy]; exact lt_irrefl b.y)
      rw [pairKeyOf, if_neg c1, pairKeyOf, if_neg c2, hx, hy]
    · have c1 : ¬ (a.x < b.x ∨ (a.x = b.x ∧ a.y < b.y)) := by
        rintro (h | ⟨-, h⟩)
        · exact absurd h (by rw [hx]; exact lt_irrefl b.x)
        · exact absurd hy (not_lt.mpr (le_of_lt h))
      have c2 : b.x < a.x ∨ (b.x = a.x ∧ b.y < a.y) := Or.inr ⟨hx.symm, hy⟩
      rw [pairKeyOf, if_neg c1, pairKeyOf, if_pos c2]
  · have c1 : ¬ (a.x < b.x ∨ (a.x = b.x ∧ a.y < b.y)) := by
      rintro (h | ⟨h, -⟩)
      · exact absurd hx (not_lt.mpr (le_of_lt h))
      · exact absurd hx (by rw [h]; exact lt_irrefl b.x)
    have c2 : b.x < a.x ∨ (b.x = a.x ∧ b.y < a.y) := Or.inl hx
    rw [pairKeyOf, if_neg c1, pairKeyOf, if_pos c2]

/-- Equal pair keys force equal unordered position pairs. -/
theorem pairKeyOf_eq_cases (a b c d : Entity) (h : pairKeyOf a b = pairKeyOf c d) :
    ((a.x = c.x ∧ a.y = c.y) ∧ (b.x = d.x ∧ b.y = d.y)) ∨
    ((a.x = d.x ∧ a.y = d.y) ∧ (b.x = c.x ∧ b.y = c.y)) := by
  unfold pairKeyOf at h
  split_ifs at h <;> simp only [Prod.mk.injEq] at h <;> tauto

/-- `sharesCell e f` holds exactly when the two entities have a common
spatial-hash cell. -/
theorem sharesCell_iff (e f : Entity) :
    sharesCell e f = true ↔
      ∃ k, k ∈ getEntityCellKeys e ∧ k ∈ getEntityCellKeys f := by
  simp [sharesCell, List.any_eq_true]

/-- `sharesCell` is symmetric. -/
theorem sharesCell_symm (e f : Entity) : sharesCell e f = sharesCell f e := by
  cases he : sharesCell e f <;> cases hf : sharesCell f e <;> try rfl
  · obtain ⟨k, h1, h2⟩ := (sharesCell_iff f e).mp hf
    have h3 := (sharesCell_iff e f).mpr ⟨k, h2, h1⟩
    rw [he] at h3
    cases h3
  · obtain ⟨k, h1, h2⟩ := (sharesCell_iff e f).mp he
    have h3 := (sharesCell_iff f e).mpr ⟨k, h2, h1⟩
    rw [hf] at h3
    cases h3

/-- Membership in the encounter stream, characterized: both components
carry their actual list entry, the indices differ, neither entity is a
black hole, and the two entities share a spatial-hash cell. -/
theorem mem_collisionEncounters (entities : List Entity)
    (pr : (ℕ × Entity) × (ℕ × Entity)) :
    pr ∈ collisionEncounters entities ↔
      entities[pr.1.1]? = some pr.1.2 ∧ entities[pr.2.1]? = some pr.2.2 ∧
      pr.2.1 ≠ pr.1.1 ∧ pr.1.2.isBlackHole = false ∧ pr.2.2.isBlackHole = false ∧
      ∃ k, k ∈ getEntityCellKeys pr.1.2 ∧ k ∈ getEntityCellKeys pr.2.2 := by
  constructor
  · intro h
    simp only [collisionEncounters, List.mem_flatMap] at h
    obtain ⟨p, hp, h⟩ := h
    by_cases hbh : p.2.isBlackHole = true
    · rw [if_pos hbh] at h
      exact absurd h (List.not_mem_nil pr)
    · rw [if_neg hbh, List.mem_flatMap] at h
      obtain ⟨k, hk, h⟩ := h
      rw [List.mem_filterMap] at h
      obtain ⟨q, hq, hpq⟩ := h
      by_cases hc : (decide (q.1 = p.1) || q.2.isBlackHole) = true
      · rw [if_pos hc] at hpq
        exact Option.noConfusion hpq
      · rw [if_neg hc] at hpq
        rw [Option.some_inj] at hpq
        simp only [Bool.or_eq_true, decide_eq_true_eq, not_or] at hc
        simp only [cellOccupants, List.mem_filter, Bool.and_eq_true,
          Bool.not_eq_true', decide_eq_true_eq] at hq
        subst hpq
        exact ⟨List.mem_enum_iff_getElem?.mp hp, List.mem_enum_iff_getElem?.mp hq.1,
          hc.1, Bool.eq_false_iff.mpr hbh, hq.2.1, k, hk, hq.2.2⟩
  · rintro ⟨h1, h2, hne, hbh1, hbh2, k, hk1, hk2⟩
    simp only [collisionEncounters, List.mem_flatMap]
    refine ⟨pr.1, List.mem_enum_iff_getElem?.mpr h1, ?_⟩
    rw [if_neg (by rw [hbh1]; exact Bool.false_ne_true), List.mem_flatMap]
    refine ⟨k, hk1, ?_⟩
    rw [List.mem_filterMap]
    refine ⟨pr.2, ?_, ?_⟩
    · simp only [cellOccupants, List.mem_filter, Bool.and_eq_true,
        Bool.not_eq_true', decide_eq_true_eq]
      exact ⟨List.mem_enum_iff_getElem?.mpr h2, ⟨hbh2, hk2⟩⟩
    · rw [if_neg]
      simp only [Bool.or_eq_true, decide_eq_true_eq, not_or]
      exact ⟨hne, by rw [hbh2]; exact Bool.false_ne_true⟩

/-- C8 (amended): when all entities have pairwise-distinct positions,
the unordered index pairs on which `forEachCollisionPair` invokes its
callback are exactly the brute-force pairs — distinct indices, neither
entity a BlackHole, sharing at least one spatial-hash cell — and the
callback runs exactly once per such pair.  (Without the
distinct-position hypothesis the position-based dedup key can suppress
pairs; see the counterexample.) -/
theorem forEachCollisionPair_spec (entities : List Entity)
    (hpos : ∀ (i j : ℕ) (ei ej : Entity), entities[i]? = some ei →
      entities[j]? = some ej → i ≠ j → ¬(ei.x = ej.x ∧ ei.y = ej.y)) :
    (∀ pr ∈ collisionPairs entities, ∃ ei ej,
      entities[pr.1]? = some ei ∧ entities[pr.2]? = some ej ∧ pr.1 ≠ pr.2 ∧
      ei.isBlackHole = false ∧ ej.isBlackHole = false ∧ sharesCell ei ej = true) ∧
    (∀ (i j : ℕ) (ei ej : Entity), i < j → entities[i]? = some ei →
      entities[j]? = some ej →
      (collisionPairs entities).countP (fun pr =>
        (decide (pr.1 = i) && decide (pr.2 = j)) ||
        (decide (pr.1 = j) && decide (pr.2 = i))) =
      if ei.isBlackHole = false ∧ ej.isBlackHole = false ∧ sharesCell ei ej = true
      then 1 else 0) := by
  constructor
  · intro pr hpr
    simp only [collisionPairs, List.mem_map] at hpr
    obtain ⟨a, ha, hmap⟩ := hpr
    have hstream := dedupByKey_subset _ _ _ a ha
    rw [mem_collisionEncounters] at hstream
    obtain ⟨h1, h2, hne, hb1, hb2, k, hk1, hk2⟩ := hstream
    subst hmap
    exact ⟨a.1.2, a.2.2, h1, h2, Ne.symm hne, hb1, hb2,
      (sharesCell_iff _ _).mpr ⟨k, hk1, hk2⟩⟩
  · intro i j ei ej hij hi hj
    have hcong : ∀ a ∈ dedupByKey
        (fun pr : (ℕ × Entity) × (ℕ × Entity) => pairKeyOf pr.1.2 pr.2.2) []
        (collisionEncounters entities),
        ((decide (a.1.1 = i) && decide (a.2.1 = j)) ||
         (decide (a.1.1 = j) && decide (a.2.1 = i))) = true ↔
        decide (pairKeyOf a.1.2 a.2.2 = pairKeyOf ei ej) = true := by
      intro a ha
      have hstream := dedupByKey_subset _ _ _ a ha
      rw [mem_collisionEncounters] at hstream
      obtain ⟨h1, h2, hne, hb1, hb2, k, hk1, hk2⟩ := hstream
      simp only [Bool.or_eq_true, Bool.and_eq_true, decide_eq_true_eq]
      constructor
      · rintro (⟨hia, hja⟩ | ⟨hja, hia⟩)
        · have he1 : a.1.2 = ei := Option.some_injective _ ((hia ▸ h1).symm.trans hi)
          have he2 : a.2.2 = ej := Option.some_injective _ ((hja ▸ h2).symm.trans hj)
          rw [he1, he2]
        · have he1 : a.1.2 = ej := Option.some_injective _ ((hja ▸ h1).symm.trans hj)
          have he2 : a.2.2 = ei := Option.some_injective _ ((hia ▸ h2).symm.trans hi)
          rw [he1, he2, pairKeyOf_symm]
      · intro hkey
        rcases pairKeyOf_eq_cases _ _ _ _ hkey with
          ⟨⟨hx1, hy1⟩, hx2, hy2⟩ | ⟨⟨hx1, hy1⟩, hx2, hy2⟩
        · left
          constructor
          · by_contra hnei
            exact hpos a.1.1 i a.1.2 ei h1 hi hnei ⟨hx1, hy1⟩
          · by_contra hnej
            exact hpos a.2.1 j a.2.2 ej h2 hj hnej ⟨hx2, hy2⟩
        · right
          constructor
          · by_contra hnej
            exact hpos a.1.1 j a.1.2 ej h1 hj hnej ⟨hx1, hy1⟩
          · by_contra hnei
            exact hpos a.2.1 i a.2.2 ei h2 hi hnei ⟨hx2, hy2⟩
    have hded := dedupByKey_countP
      (fun pr : (ℕ × Entity) × (ℕ × Entity) => pairKeyOf pr.1.2 pr.2.2)
      (pairKeyOf ei ej) [] (collisionEncounters entities)
    rw [if_neg (List.not_mem_nil _)] at hded
    have hfinal : min 1 ((collisionEncounters entities).countP
        (fun a => decide (pairKeyOf a.1.2 a.2.2 = pairKeyOf ei ej))) =
        if ei.isBlackHole = false ∧ ej.isBlackHole = false ∧ sharesCell ei ej = true
        then 1 else 0 := by
      by_cases hcand : ei.isBlackHole = false ∧ ej.isBlackHole = false ∧
          sharesCell ei ej = true
      · rw [if_pos hcand]
        have hel : ((i, ei), (j, ej)) ∈ collisionEncounters entities := by
          rw [mem_collisionEncounters]
          obtain ⟨k, hk1, hk2⟩ := (sharesCell_iff ei ej).mp hcand.2.2
          exact ⟨hi, hj, Ne.symm (Nat.ne_of_lt hij), hcand.1, hcand.2.1, k, hk1, hk2⟩
        have hpos1 : 0 < (collisionEncounters entities).countP
            (fun a => decide (pairKeyOf a.1.2 a.2.2 = pairKeyOf ei ej)) :=
          List.countP_pos.mpr ⟨((i, ei), (j, ej)), hel, by simp⟩
        omega
      · rw [if_neg hcand]
        have hzero : (collisionEncounters entities).countP
            (fun a => decide (pairKeyOf a.1.2 a.2.2 = pairKeyOf ei ej)) = 0 := by
          rw [List.countP_eq_zero]
          intro a ha hkeyb
          rw [decide_eq_true_eq] at hkeyb
          rw [mem_collisionEncounters] at ha
          obtain ⟨h1, h2, hne, hb1, hb2, k, hk1, hk2⟩ := ha
          rcases pairKeyOf_eq_cases _ _ _ _ hkeyb with
            ⟨⟨hx1, hy1⟩, hx2, hy2⟩ | ⟨⟨hx1, hy1⟩, hx2, hy2⟩
          · have hidx1 : a.1.1 = i := by
              by_contra hnei
              exact hpos a.1.1 i a.1.2 ei h1 hi hnei ⟨hx1, hy1⟩
            have hidx2 : a.2.1 = j := by
              by_contra hnej
              exact hpos a.2.1 j a.2.2 ej h2 hj hnej ⟨hx2, hy2⟩
            have he1 : a.1.2 = ei := Option.some_injective _ ((hidx1 ▸ h1).symm.trans hi)
            have he2 : a.2.2 = ej := Option.some_injective _ ((hidx2 ▸ h2).symm.trans hj)
            exact hcand ⟨he1 ▸ hb1, he2 ▸ hb2,
              (sharesCell_iff ei ej).mpr ⟨k, he1 ▸ hk1, he2 ▸ hk2⟩⟩
          · have hidx1 : a.1.1 = j := by
              by_contra hnej
              exact hpos a.1.1 j a.1.2 ej h1 hj hnej ⟨hx1, hy1⟩
            have hidx2 : a.2.1 = i := by
              by_contra hnei
              exact hpos a.2.1 i a.2.2 ei h2 hi hnei ⟨hx2, hy2⟩
            have he1 : a.1.2 = ej := Option.some_injective _ ((hidx1 ▸ h1).symm.trans hj)
            have he2 : a.2.2 = ei := Option.some_injective _ ((hidx2 ▸ h2).symm.trans hi)
            exact hcand ⟨he2 ▸ hb2, he1 ▸ hb1,
              (sharesCell_iff ei ej).mpr ⟨k, he2 ▸ hk2, he1 ▸ hk1⟩⟩
        rw [hzero]
        simp
    simp only [collisionPairs]
    rw [List.countP_map]
    exact (List.countP_congr hcong).trans (hded.trans hfinal)


theorem cellKeys_entA : getEntityCellKeys entA = [(-1,-1),(-1,0),(0,-1),(0,0)] := by
  norm_num [entA, getEntityCellKeys, SPATIAL_CELL_SIZE]
  decide

theorem cellKeys_entB : getEntityCellKeys entB = [(-1,-1),(-1,0),(0,-1),(0,0)] := by
  norm_num [entB, getEntityCellKeys, SPATIAL_CELL_SIZE]
  decide

theorem cellKeys_entC : getEntityCellKeys entC = [(0,-1),(0,0)] := by
  norm_num [entC, getEntityCellKeys, SPATIAL_CELL_SIZE]
  decide

theorem entA_bh : entA.isBlackHole = false := rfl

theorem entB_bh : entB.isBlackHole = false := rfl

theorem entC_bh : entC.isBlackHole = false := rfl

theorem cellOccupants_ce1 : cellOccupants [entA, entB, entC] (-1,-1) = [(0,entA),(1,entB)] := by
  simp [cellOccupants, List.enum, List.enumFrom, cellKeys_entA, cellKeys_entB,
    cellKeys_entC, entA_bh, entB_bh, entC_bh]

theorem cellOccupants_ce2 : cellOccupants [entA, entB, entC] (-1,0) = [(0,entA),(1,entB)] := by
  simp [cellOccupants, List.enum, List.enumFrom, cellKeys_entA, cellKeys_entB,
    cellKeys_entC, entA_bh, entB_bh, entC_bh]

theorem cellOccupants_ce3 : cellOccupants [entA, entB, entC] (0,-1) = [(0,entA),(1,entB),(2,entC)] := by
  simp [cellOccupants, List.enum, List.enumFrom, cellKeys_entA, cellKeys_entB,
    cellKeys_entC, entA_bh, entB_bh, entC_bh]

theorem cellOccupants_ce4 : cellOccupants [entA, entB, entC] 0 = [(0,entA),(1,entB),(2,entC)] := by
  simp [cellOccupants, List.enum, List.enumFrom, cellKeys_entA, cellKeys_entB,
    cellKeys_entC, entA_bh, entB_bh, entC_bh]

theorem collisionEncounters_ce : collisionEncounters [entA, entB, entC] =
    [((0,entA),(1,entB)), ((0,entA),(1,entB)), ((0,entA),(1,entB)), ((0,entA),(2,entC)), ((0,entA),(1,entB)), ((0,entA),(2,entC)),
     ((1,entB),(0,entA)), ((1,entB),(0,entA)), ((1,entB),(0,entA)), ((1,entB),(2,entC)), ((1,entB),(0,entA)), ((1,entB),(2,entC)),
     ((2,entC),(0,entA)), ((2,entC),(1,entB)), ((2,entC),(0,entA)), ((2,entC),(1,entB))] := by
  simp [collisionEncounters, List.enum, List.enumFrom, cellKeys_entA, cellKeys_entB,
    cellKeys_entC, entA_bh, entB_bh, entC_bh, cellOccupants_ce1, cellOccupants_ce2,
    cellOccupants_ce3, cellOccupants_ce4]

theorem pairKey_AB : pairKeyOf entA entB = ((0,0),(0,0)) := by
  norm_num [pairKeyOf, entA, entB]

theorem pairKey_BA : pairKeyOf entB entA = ((0,0),(0,0)) := by
  norm_num [pairKeyOf, entB, entA]

theorem pairKey_AC : pairKeyOf entA entC = ((0,0),(10,0)) := by
  norm_num [pairKeyOf, entA, entC]

theorem pairKey_CA : pairKeyOf entC entA = ((0,0),(10,0)) := by
  norm_num [pairKeyOf, entC, entA]

theorem pairKey_BC : pairKeyOf entB entC = ((0,0),(10,0)) := by
  norm_num [pairKeyOf, entB, entC]

theorem pairKey_CB : pairKeyOf entC entB = ((0,0),(10,0)) := by
  norm_num [pairKeyOf, entC, entB]

theorem collisionPairs_ce : collisionPairs [entA, entB, entC] = [(0,1),(0,2)] := by
  simp [collisionPairs, collisionEncounters_ce, dedupByKey, pairKey_AB, pairKey_BA,
    pairKey_AC, pairKey_CA, pairKey_BC, pairKey_CB]

theorem sharesCell_entB_entC : sharesCell entB entC = true := by
  simp [sharesCell, cellKeys_entB, cellKeys_entC]

/-- C8 counterexample: in the three-entity list `[entA, entB, entC]`,
the unordered pair of indices 1 and 2 (`entB`, `entC`) is a brute-force
candidate — both present, neither a BlackHole, sharing a spatial-hash
cell — yet the spatial-hash sweep never invokes the callback on it:
its pair key, built from positions only, was already consumed by the
pair (0, 2) because `entA` and `entB` occupy the same position.  The
claimed equivalence with the brute-force sweep therefore fails in
general. -/
theorem forEachCollisionPair_dedup_counterexample :
    ([entA, entB, entC] : List Entity)[1]? = some entB ∧
    ([entA, entB, entC] : List Entity)[2]? = some entC ∧
    entB.isBlackHole = false ∧ entC.isBlackHole = false ∧
    sharesCell entB entC = true ∧
    (collisionPairs [entA, entB, entC]).countP (fun pr =>
      (decide (pr.1 = 1) && decide (pr.2 = 2)) ||
      (decide (pr.1 = 2) && decide (pr.2 = 1))) = 0 := by
  refine ⟨rfl, rfl, rfl, rfl, sharesCell_entB_entC, ?_⟩
  rw [collisionPairs_ce]
  decide

/-- Witness for C8: the amended theorem applied to the concrete
two-entity list `[entA, entC]`, whose positions are distinct. -/
theorem forEachCollisionPair_spec_witness :
    (∀ pr ∈ collisionPairs [entA, entC], ∃ ei ej,
      ([entA, entC] : List Entity)[pr.1]? = some ei ∧
      ([entA, entC] : List Entity)[pr.2]? = some ej ∧ pr.1 ≠ pr.2 ∧
      ei.isBlackHole = false ∧ ej.isBlackHole = false ∧ sharesCell ei ej = true) ∧
    (∀ (i j : ℕ) (ei ej : Entity), i < j →
      ([entA, entC] : List Entity)[i]? = some ei →
      ([entA, entC] : List Entity)[j]? = some ej →
      (collisionPairs [entA, entC]).countP (fun pr =>
        (decide (pr.1 = i) && decide (pr.2 = j)) ||
        (decide (pr.1 = j) && decide (pr.2 = i))) =
      if ei.isBlackHole = false ∧ ej.isBlackHole = false ∧ sharesCell ei ej = true
      then 1 else 0) :=
  forEachCollisionPair_spec [entA, entC] (by
    intro i j ei ej hi hj hne
    have hi2 : i < 2 := by
      by_contra h
      rw [List.getElem?_eq_none (by simpa using Nat.le_of_not_lt h)] at hi
      exact Option.noConfusion hi
    have hj2 : j < 2 := by
      by_contra h
      rw [List.getElem?_eq_none (by simpa using Nat.le_of_not_lt h)] at hj
      exact Option.noConfusion hj
    interval_cases i <;> interval_cases j <;> simp_all [entA, entC] <;>
      (subst hi; subst hj; norm_num))
